import Mathlib

/-!
Verification development for the reactodia/worker-proxy repository.

The embedding below translates the source files faithfully:
- `Message`, `ResponseMsg`, `connectWorkerStep` embed src/protocol.ts
  (the envelope types and the remote-side `connectWorker` handler);
- `WorkerConnection` embeds the `WorkerConnection` class (the Channel):
  `call`, `onMessage`, `onError`, `dispose`;
- `Sim` embeds the whole consumer side (`LazyRefCountedWorker` plus
  `LazyWorkerProxy`) as a small-step event semantics: each event is an
  atomic unit of the single-threaded run-to-completion scheduling
  (a user operation together with the microtasks it drains, or the
  processing of one incoming worker message / fault).

Payloads are opaque values; promise outcomes are tracked per proxy-level
call via `CallStatus`, and the shared pending promise of each connection
attempt via `PromiseSt`.
-/

/-- Opaque payload values exchanged with the worker (arguments, results,
errors). The source treats these as structured-cloneable data; only
equality matters for the claims. -/
inductive Val
  | undef
  | num (n : Int)
  | str (s : String)
deriving DecidableEq

/-- Wire envelopes of src/protocol.ts: `WorkerCall`, `WorkerCallSuccess`,
`WorkerCallError` (`type` is `'call' | 'success' | 'error'`). -/
inductive Message
  | call (id : Nat) (method : String) (args : List Val)
  | success (id : Nat) (result : Val)
  | error (id : Nat) (error : Val)
deriving DecidableEq

/-- An incoming message as seen by `WorkerConnection.onMessage`: the code
reads `message.id` first and then switches on `message.type`, so a message
with an unrecognized `type` (modelled by `other`) still carries an id. -/
inductive ResponseMsg
  | success (id : Nat) (result : Val)
  | error (id : Nat) (error : Val)
  | other (kind : String) (id : Nat)
deriving DecidableEq

/-- The `message.id` field of an incoming message. -/
def ResponseMsg.id : ResponseMsg → Nat
  | .success id _ => id
  | .error id _ => id
  | .other _ id => id

/-- State of one `WorkerConnection` (the Channel): the pending-call table
keyed by call id (callbacks live outside the state; the table keeps the
ids in insertion order, as a JS `Map` does), the monotonically assigned
next id (starts at 1), the log of envelopes posted via `postMessage`, and
whether the message/error listeners are still attached (dispose removes
them). -/
structure WorkerConnection where
  requests : List Nat
  nextCallId : Nat
  sent : List Message
  listening : Bool
deriving DecidableEq

/-- A freshly constructed `WorkerConnection` (listeners attached,
`nextCallId = 1`, empty table). -/
def WorkerConnection.new : WorkerConnection :=
  { requests := [], nextCallId := 1, sent := [], listening := true }

/-- `WorkerConnection.call`: assigns a fresh id, records a pending entry,
posts the Call Envelope, returns the id identifying the promise. The
source accepts `options.signal` but never reads it, which the unused
`signal` argument mirrors. -/
def WorkerConnection.call (c : WorkerConnection) (method : String)
    (args : List Val) (signal : Option Unit) : WorkerConnection × Nat :=
  let id := c.nextCallId
  ({ c with
      requests := c.requests ++ [id],
      nextCallId := id + 1,
      sent := c.sent ++ [Message.call id method args] }, id)

/-- The externally visible effect of one `onMessage`/`onError` dispatch on
a single pending entry: its promise resolved or rejected, a
`console.warn` for an unrecognized kind, or nothing (stale id). -/
inductive RpcAction
  | resolved (id : Nat) (result : Val)
  | rejected (id : Nat) (error : Val)
  | warned (kind : String)
  | dropped
deriving DecidableEq

/-- `WorkerConnection.onMessage`: looks the id up in the pending table; if
present the entry is deleted first, then the kind is switched on: success
resolves, error rejects, any other kind only warns (the entry stays
deleted). An unmatched id is a no-op. -/
def WorkerConnection.onMessage (c : WorkerConnection) (m : ResponseMsg) :
    WorkerConnection × RpcAction :=
  if c.requests.contains m.id then
    let c1 := { c with requests := c.requests.erase m.id }
    match m with
    | .success id result => (c1, .resolved id result)
    | .error id e => (c1, .rejected id e)
    | .other kind _ => (c1, .warned kind)
  else
    (c, .dropped)

/-- `WorkerConnection.onError`: a worker-level fault rejects every
currently pending call with the fault and clears the table. -/
def WorkerConnection.onError (c : WorkerConnection) (fault : Val) :
    WorkerConnection × List RpcAction :=
  ({ c with requests := [] },
   c.requests.map (fun id => RpcAction.rejected id fault))

/-- `WorkerConnection.dispose`: removes both listeners and terminates the
worker; the pending table is left untouched. -/
def WorkerConnection.dispose (c : WorkerConnection) : WorkerConnection :=
  { c with listening := false }

/-- Behavior of the remote class handed to `connectWorker`: `construct`
models `new factory(...args)` (which may throw), `invoke` models
`handler[method](...args)` on an instance remembered by its constructor
arguments (a missing method or a rejecting method both surface as
`Except.error`). -/
structure RemoteBehavior where
  construct : List Val → Except Val Unit
  invoke : List Val → String → List Val → Except Val Val

/-- The error message thrown by `connectWorker` for a non-constructor call
received before initialization. -/
def uninitializedError : Val :=
  Val.str "Cannot call worker method without initializing it first"

/-- One `onmessage` dispatch of `connectWorker` (src/protocol.ts): only
`'call'` messages are handled; with a handler present the method is
invoked and a success/error envelope posted; without one, any method
other than `"constructor"` produces an error envelope, while a
`"constructor"` call runs the class constructor on the call's args and on
success installs the instance. Returns the new handler state and the
posted envelopes. -/
def connectWorkerStep (b : RemoteBehavior) (handler : Option (List Val))
    (m : Message) : Option (List Val) × List Message :=
  match m with
  | .call id method args =>
    match handler with
    | some ctorArgs =>
      match b.invoke ctorArgs method args with
      | .ok r => (some ctorArgs, [Message.success id r])
      | .error e => (some ctorArgs, [Message.error id e])
    | none =>
      if method ≠ "constructor" then
        (none, [Message.error id uninitializedError])
      else
        match b.construct args with
        | .ok _ => (some args, [Message.success id Val.undef])
        | .error e => (none, [Message.error id e])
  | _ => (handler, [])

/-- Status of the shared pending promise created by
`LazyWorkerProxy.makeBlockedState` for one connection attempt. -/
inductive PromiseSt
  | pending
  | resolvedOk (chan : Nat)
  | rejectedAbort
  | rejectedWith (error : Val)
deriving DecidableEq

/-- Bookkeeping for one connection attempt (one `makeBlockedState`
generation): the `AbortController`'s aborted flag, the shared promise's
status, and, while a `connect()` body is suspended awaiting its
constructor call, the channel that call was sent on. -/
structure GenInfo where
  aborted : Bool
  promise : PromiseSt
  connectPending : Option Nat
deriving DecidableEq

/-- A freshly created generation: controller unaborted, shared promise
pending, no connect in flight. -/
def GenInfo.fresh : GenInfo :=
  { aborted := false, promise := PromiseSt.pending, connectPending := none }

/-- The five-variant `connectionState` union of `LazyWorkerProxy`; the
non-disconnected variants name their generation, and `connected` also the
channel held by the state. -/
inductive ConnState
  | disconnected
  | blocked (gen : Nat)
  | ready (gen : Nat)
  | connecting (gen : Nat)
  | connected (gen : Nat) (chan : Nat)
deriving DecidableEq

/-- Status of one proxy-level method-call promise: awaiting the shared
promise of generation `gen`, sent on a channel and awaiting its response,
or settled. -/
inductive CallStatus
  | waiting (gen : Nat)
  | sentOn (chan : Nat) (callId : Nat)
  | resolved (result : Val)
  | rejectedAbort
  | rejectedWith (error : Val)
deriving DecidableEq

/-- One proxy-level method call: name, arguments, promise status. -/
structure PCall where
  name : String
  args : List Val
  status : CallStatus
deriving DecidableEq

/-- One channel created by `connect()`: the `WorkerConnection` state plus
whether its initialization (`"constructor"`) call has succeeded. -/
structure Chan where
  conn : WorkerConnection
  ctorOk : Bool
deriving DecidableEq

/-- Global state of one `LazyRefCountedWorker` and its (at most one)
`LazyWorkerProxy`: the instance id (allocated once by `ensureInstance`),
the reference count, the connection state machine, all generations and
channels ever created, the number of worker-factory invocations, every
proxy-level call with its status, the proxy's method cache with the
counter of created forwarding closures, and the configured constructor
arguments. -/
structure Sim where
  instanceVer : Option Nat
  nextVer : Nat
  refCount : Int
  connState : ConnState
  gens : List GenInfo
  channels : List Chan
  factoryCount : Nat
  calls : List PCall
  methods : List (String × Nat)
  nextFn : Nat
  ctorArgs : List Val
deriving DecidableEq

/-- Initial state of `refCountedWorker(factory, ctorArgs)`: no instance,
zero count, disconnected. -/
def Sim.init (ctorArgs : List Val) : Sim :=
  { instanceVer := none, nextVer := 0, refCount := 0,
    connState := ConnState.disconnected, gens := [], channels := [],
    factoryCount := 0, calls := [], methods := [], nextFn := 0,
    ctorArgs := ctorArgs }

/-- In-place list update at an index (out-of-range is a no-op). -/
def setIdx {α : Type} : List α → Nat → α → List α
  | [], _, _ => []
  | _ :: rest, 0, a => a :: rest
  | x :: rest, n + 1, a => x :: setIdx rest n a

/-- Index of the generation whose `connect()` is suspended on channel
`cid`, if any. -/
def findPending : List GenInfo → Nat → Option Nat
  | [], _ => none
  | gi :: rest, cid =>
    if gi.connectPending = some cid then some 0
    else (findPending rest cid).map (· + 1)

/-- `makeBlockedState`: allocates a fresh generation (new shared promise
and new `AbortController`), returning its index. -/
def Sim.newGen (s : Sim) : Sim × Nat :=
  ({ s with gens := s.gens ++ [GenInfo.fresh] }, s.gens.length)

/-- Rejecting the shared promise of generation `g` settles every call
awaiting it with the given status. -/
def Sim.rejectWaiting (s : Sim) (g : Nat) (st : CallStatus) : Sim :=
  { s with calls := s.calls.map (fun c =>
      if c.status = CallStatus.waiting g then { c with status := st } else c) }

/-- `dispose()` on channel `cid`. -/
def Sim.disposeChan (s : Sim) (cid : Nat) : Sim :=
  match s.channels.get? cid with
  | none => s
  | some ch =>
    { s with channels := setIdx s.channels cid ({ ch with conn := ch.conn.dispose }) }

/-- The `tryConnect` `ready` case: starts `connect(state)` and moves to
`connecting`. The `connect` body runs synchronously up to its first await:
`throwIfAborted` (if the controller is already aborted the returned
promise rejects, which rejects the shared promise), then the worker
factory is invoked, a fresh `WorkerConnection` is built, and the
`"constructor"` Call Envelope with the configured constructor arguments is
sent as the first call on it; the body then suspends awaiting that call
(recorded in `connectPending`). -/
def Sim.startConnect (s : Sim) (g : Nat) : Sim :=
  match s.gens.get? g with
  | none => s
  | some gi =>
    if gi.aborted then
      let s1 := { s with
        connState := ConnState.connecting g,
        gens := setIdx s.gens g ({ gi with promise := PromiseSt.rejectedAbort }) }
      s1.rejectWaiting g CallStatus.rejectedAbort
    else
      let cid := s.channels.length
      let c0 := (WorkerConnection.new.call "constructor" s.ctorArgs (some ())).1
      { s with
        connState := ConnState.connecting g,
        channels := s.channels ++ [{ conn := c0, ctorOk := false }],
        factoryCount := s.factoryCount + 1,
        gens := setIdx s.gens g ({ gi with connectPending := some cid }) }

/-- `LazyWorkerProxy.ready()`: from `disconnected` move to `ready` (with a
fresh generation); from `blocked` move to `ready` and immediately run
`tryConnect()` (whose `ready` case starts the connection); otherwise a
no-op. -/
def Sim.ready (s : Sim) : Sim :=
  match s.connState with
  | ConnState.disconnected =>
    let p := s.newGen
    { p.1 with connState := ConnState.ready p.2 }
  | ConnState.blocked g =>
    let s1 := { s with connState := ConnState.ready g }
    s1.startConnect g
  | _ => s

/-- `LazyRefCountedWorker.ensureInstance`: creates the single
`LazyWorkerProxy` (and thereby its `Proxy` object) on first use and
returns its id. -/
def Sim.ensureInstance (s : Sim) : Sim × Nat :=
  match s.instanceVer with
  | some i => (s, i)
  | none =>
    ({ s with instanceVer := some s.nextVer, nextVer := s.nextVer + 1 }, s.nextVer)

/-- `getProxy()`: returns the cached proxy without touching the count. -/
def Sim.getProxyFn (s : Sim) : Sim × Nat :=
  s.ensureInstance

/-- `acquire()`: ensures the instance, increments the count, and signals
`ready()` when the count is positive; returns the proxy. -/
def Sim.acquireFn (s : Sim) : Sim × Nat :=
  let p := s.ensureInstance
  let s1 : Sim := { p.1 with refCount := p.1.refCount + 1 }
  if s1.refCount > 0 then (s1.ready, p.2) else (s1, p.2)

/-- `LazyWorkerProxy.disconnect()`: aborts the current controller; from
`connected` additionally disposes the channel; the state returns to
`disconnected`. The shared promise and the channel's pending entries are
not rejected here. -/
def Sim.disconnect (s : Sim) : Sim :=
  match s.connState with
  | ConnState.disconnected => s
  | ConnState.blocked g | ConnState.ready g | ConnState.connecting g =>
    match s.gens.get? g with
    | none => { s with connState := ConnState.disconnected }
    | some gi =>
      { s with
        connState := ConnState.disconnected,
        gens := setIdx s.gens g ({ gi with aborted := true }) }
  | ConnState.connected g cid =>
    let s1 := match s.gens.get? g with
      | none => s
      | some gi => { s with gens := setIdx s.gens g ({ gi with aborted := true }) }
    { s1.disposeChan cid with connState := ConnState.disconnected }

/-- `release()`: with no instance a no-op; otherwise decrements the count
and signals `disconnect()` whenever the count reaches zero or below. -/
def Sim.release (s : Sim) : Sim :=
  match s.instanceVer with
  | none => s
  | some _ =>
    let s1 := { s with refCount := s.refCount - 1 }
    if s1.refCount ≤ 0 then s1.disconnect else s1

/-- Issues `connection.call(name, args, signal)` on channel `cid` for a
new proxy-level call and records the call as sent. -/
def Sim.sendOn (s : Sim) (cid : Nat) (name : String) (args : List Val) : Sim :=
  match s.channels.get? cid with
  | none => s
  | some ch =>
    let p := ch.conn.call name args (some ())
    { s with
      channels := setIdx s.channels cid ({ ch with conn := p.1 }),
      calls := s.calls ++ [{ name := name, args := args, status := CallStatus.sentOn cid p.2 }] }

/-- A new method call awaiting the shared promise of generation `g`: if
that promise is still pending the call waits; if it already settled the
call settles accordingly (an already-resolved promise immediately sends
the call on the connected channel). -/
def Sim.attachCall (s : Sim) (g : Nat) (name : String) (args : List Val) : Sim :=
  match s.gens.get? g with
  | none => s
  | some gi =>
    match gi.promise with
    | PromiseSt.pending =>
      { s with calls := s.calls ++ [{ name := name, args := args, status := CallStatus.waiting g }] }
    | PromiseSt.rejectedAbort =>
      { s with calls := s.calls ++ [{ name := name, args := args, status := CallStatus.rejectedAbort }] }
    | PromiseSt.rejectedWith e =>
      { s with calls := s.calls ++ [{ name := name, args := args, status := CallStatus.rejectedWith e }] }
    | PromiseSt.resolvedOk cid => s.sendOn cid name args

/-- `LazyWorkerProxy.getMethod`: looks the name up in the `methods` map
and, on a miss, creates a fresh forwarding closure (numbered by `nextFn`).
The source never stores the created closure back into the map, which this
definition mirrors. -/
def Sim.getMethod (s : Sim) (name : String) : Sim × Nat :=
  match s.methods.lookup name with
  | some f => (s, f)
  | none => ({ s with nextFn := s.nextFn + 1 }, s.nextFn)

/-- A method invocation on the proxy: `getMethod` produces the forwarding
closure, which awaits `tryConnect()` and then issues the channel call.
The `tryConnect` cases: `disconnected` creates a fresh blocked state;
`blocked`/`connecting` return the existing shared promise; `ready` starts
the connection; `connected` resolves immediately with the current channel,
so the call is sent at once. -/
def Sim.mcall (s0 : Sim) (name : String) (args : List Val) : Sim :=
  let s := ((s0.ensureInstance).1.getMethod name).1
  match s.connState with
  | ConnState.disconnected =>
    let p := s.newGen
    Sim.attachCall { p.1 with connState := ConnState.blocked p.2 } p.2 name args
  | ConnState.blocked g => s.attachCall g name args
  | ConnState.ready g => (s.startConnect g).attachCall g name args
  | ConnState.connecting g => s.attachCall g name args
  | ConnState.connected _ cid => s.sendOn cid name args

/-- Settles the proxy-level call that was sent on channel `cid` with call
id `id` (a no-op when no such call is pending). -/
def Sim.settleSent (s : Sim) (cid : Nat) (id : Nat) (st : CallStatus) : Sim :=
  { s with calls := s.calls.map (fun c =>
      if c.status = CallStatus.sentOn cid id then { c with status := st } else c) }

/-- Resolving the shared promise of generation `g` with channel `cid` runs
every continuation awaiting it, in call order: each sends its envelope on
`cid` with a freshly assigned id. -/
def Sim.flushWaiting (s : Sim) (g : Nat) (cid : Nat) : Sim :=
  match s.channels.get? cid with
  | none => s
  | some ch =>
    let f := fun (acc : WorkerConnection × List PCall) (c : PCall) =>
      if c.status = CallStatus.waiting g then
        let p := acc.1.call c.name c.args (some ())
        (p.1, acc.2 ++ [{ c with status := CallStatus.sentOn cid p.2 }])
      else (acc.1, acc.2 ++ [c])
    let r := s.calls.foldl f (ch.conn, [])
    { s with
      channels := setIdx s.channels cid ({ ch with conn := r.1 }),
      calls := r.2 }

/-- The `connect()` continuation of generation `g` resuming after its
`"constructor"` call on channel `cid` settled. On success: if the
controller was aborted meanwhile, the channel is disposed and the shared
promise rejects with the abort error; otherwise the resolve handler makes
the state `connected`, resolves the shared promise and the waiting calls
are sent. On error the body throws before the abort check, so the shared
promise rejects with the error and the connection state is left as it
was. -/
def Sim.finishConnect (s : Sim) (g : Nat) (cid : Nat) (ok : Bool) (e : Val) : Sim :=
  match s.gens.get? g with
  | none => s
  | some gi =>
    if ok then
      if gi.aborted then
        let gi1 : GenInfo :=
          { gi with connectPending := none, promise := PromiseSt.rejectedAbort }
        let s1 : Sim := { s with gens := setIdx s.gens g gi1 }
        (s1.disposeChan cid).rejectWaiting g CallStatus.rejectedAbort
      else
        let gi1 : GenInfo :=
          { gi with connectPending := none, promise := PromiseSt.resolvedOk cid }
        let s1 : Sim := { s with
          gens := setIdx s.gens g gi1,
          connState := ConnState.connected g cid }
        let s2 := match s1.channels.get? cid with
          | none => s1
          | some ch =>
            { s1 with channels := setIdx s1.channels cid ({ ch with ctorOk := true }) }
        s2.flushWaiting g cid
    else
      let gi1 : GenInfo :=
        { gi with connectPending := none, promise := PromiseSt.rejectedWith e }
      let s1 : Sim := { s with gens := setIdx s.gens g gi1 }
      s1.rejectWaiting g (CallStatus.rejectedWith e)

/-- Routes one pending-entry settlement on channel `cid`: id 1 of a
channel some `connect()` is suspended on is that generation's constructor
call; any other id settles the matching sent proxy-level call. -/
def Sim.interpretAction (s : Sim) (cid : Nat) (act : RpcAction) : Sim :=
  match act with
  | RpcAction.warned _ => s
  | RpcAction.dropped => s
  | RpcAction.resolved id v =>
    match findPending s.gens cid with
    | some g =>
      if id = 1 then s.finishConnect g cid true v
      else s.settleSent cid id (CallStatus.resolved v)
    | none => s.settleSent cid id (CallStatus.resolved v)
  | RpcAction.rejected id e =>
    match findPending s.gens cid with
    | some g =>
      if id = 1 then s.finishConnect g cid false e
      else s.settleSent cid id (CallStatus.rejectedWith e)
    | none => s.settleSent cid id (CallStatus.rejectedWith e)

/-- A response envelope arriving on channel `cid`: processed by the
channel's `onMessage` while its listeners are attached, then the resulting
promise settlement is propagated. -/
def Sim.response (s : Sim) (cid : Nat) (m : ResponseMsg) : Sim :=
  match s.channels.get? cid with
  | none => s
  | some ch =>
    if ch.conn.listening then
      let p := ch.conn.onMessage m
      let s1 := { s with channels := setIdx s.channels cid ({ ch with conn := p.1 }) }
      s1.interpretAction cid p.2
    else s

/-- A worker-level fault on channel `cid`: `onError` rejects every pending
entry; each rejection is then propagated. -/
def Sim.fault (s : Sim) (cid : Nat) (err : Val) : Sim :=
  match s.channels.get? cid with
  | none => s
  | some ch =>
    if ch.conn.listening then
      let p := ch.conn.onError err
      let s1 := { s with channels := setIdx s.channels cid ({ ch with conn := p.1 }) }
      p.2.foldl (fun acc a => acc.interpretAction cid a) s1
    else s

/-- Observable events driving the system: the four public operations of
the ref-counted handle, a proxy method invocation, and the two kinds of
incoming worker activity. -/
inductive Ev
  | getProxy
  | acquire
  | release
  | mcall (name : String) (args : List Val)
  | response (chan : Nat) (m : ResponseMsg)
  | fault (chan : Nat) (error : Val)
deriving DecidableEq

/-- One atomic event. -/
def Sim.step (s : Sim) : Ev → Sim
  | Ev.getProxy => (s.getProxyFn).1
  | Ev.acquire => (s.acquireFn).1
  | Ev.release => s.release
  | Ev.mcall name args => s.mcall name args
  | Ev.response cid m => s.response cid m
  | Ev.fault cid e => s.fault cid e

/-- Runs an event trace from the initial state of a worker definition
configured with `ctorArgs`. -/
def Sim.run (ctorArgs : List Val) (t : List Ev) : Sim :=
  t.foldl Sim.step (Sim.init ctorArgs)

/-- The state tag as reported by `LazyWorkerProxy.getState`. -/
def ConnState.tag : ConnState → String
  | ConnState.disconnected => "disconnected"
  | ConnState.blocked _ => "blocked"
  | ConnState.ready _ => "ready"
  | ConnState.connecting _ => "connecting"
  | ConnState.connected _ _ => "connected"

/-- `LazyRefCountedWorker.getState`: `'disconnected'` before the instance
exists, otherwise the instance's state tag. -/
def Sim.getState (s : Sim) : String :=
  match s.instanceVer with
  | none => "disconnected"
  | some _ => s.connState.tag

/-- The generation the current connection state belongs to. -/
def Sim.curGen (s : Sim) : Option Nat :=
  match s.connState with
  | ConnState.disconnected => none
  | ConnState.blocked g => some g
  | ConnState.ready g => some g
  | ConnState.connecting g => some g
  | ConnState.connected g _ => some g

/-- Channel construction of the current attempt has completed: the current
generation's shared promise is resolved with a channel. -/
def Sim.constructionCompleted (s : Sim) : Bool :=
  match s.connState with
  | ConnState.disconnected => false
  | ConnState.blocked g | ConnState.ready g | ConnState.connecting g
  | ConnState.connected g _ =>
    match (s.gens.get? g).map GenInfo.promise with
    | some (PromiseSt.resolvedOk _) => true
    | _ => false

/-! ## List and fold helper lemmas -/

/-- Updating in bounds stores the value at the index. -/
theorem get?_setIdx_self {α : Type} :
    ∀ (l : List α) (i : Nat) (a : α), i < l.length → (setIdx l i a).get? i = some a
  | [], i, a, h => by simp at h
  | _ :: rest, 0, a, _ => rfl
  | x :: rest, n + 1, a, h =>
    get?_setIdx_self rest n a (Nat.lt_of_succ_lt_succ (by simpa using h))

/-- Updating one index leaves every other index unchanged. -/
theorem get?_setIdx_ne {α : Type} :
    ∀ (l : List α) (i j : Nat) (a : α), i ≠ j → (setIdx l i a).get? j = l.get? j
  | [], _, _, _, _ => rfl
  | x :: rest, 0, 0, a, h => absurd rfl h
  | x :: rest, 0, j + 1, a, _ => rfl
  | x :: rest, i + 1, 0, a, _ => rfl
  | x :: rest, i + 1, j + 1, a, h =>
    get?_setIdx_ne rest i j a (fun hij => h (by omega))

/-- Updating preserves the length. -/
theorem length_setIdx {α : Type} :
    ∀ (l : List α) (i : Nat) (a : α), (setIdx l i a).length = l.length
  | [], _, _ => rfl
  | _ :: _, 0, _ => rfl
  | x :: rest, n + 1, a => by simp [setIdx, length_setIdx rest n a]

/-- An index holding a value is in bounds. -/
theorem lt_of_get?_eq_some {α : Type} :
    ∀ (l : List α) (i : Nat) (a : α), l.get? i = some a → i < l.length
  | [], i, a, h => by simp at h
  | x :: rest, 0, a, _ => Nat.succ_pos _
  | x :: rest, n + 1, a, h =>
    Nat.succ_lt_succ (lt_of_get?_eq_some rest n a h)

/-- Reading the appended element. -/
theorem get?_append_self {α : Type} :
    ∀ (l : List α) (a : α), (l ++ [a]).get? l.length = some a
  | [], a => rfl
  | x :: rest, a => get?_append_self rest a

/-- Reading below the appended element. -/
theorem get?_append_lt {α : Type} :
    ∀ (l : List α) (l2 : List α) (i : Nat), i < l.length → (l ++ l2).get? i = l.get? i
  | [], _, i, h => by simp at h
  | x :: rest, l2, 0, _ => rfl
  | x :: rest, l2, n + 1, h =>
    get?_append_lt rest l2 n (Nat.lt_of_succ_lt_succ h)

/-- A predicate preserved by every step holds after any fold. -/
theorem foldl_inv {σ ε : Type} (P : σ → Prop) (f : σ → ε → σ)
    (hstep : ∀ s e, P s → P (f s e)) :
    ∀ (t : List ε) (s : σ), P s → P (t.foldl f s)
  | [], _, h => h
  | e :: rest, s, h => foldl_inv P f hstep rest (f s e) (hstep s e h)

/-- A predicate preserved by every step taken from the given trace holds
after folding that trace. -/
theorem foldl_inv_of_mem {σ ε : Type} (P : σ → Prop) (f : σ → ε → σ) :
    ∀ (t : List ε) (s : σ),
      (∀ s' e, e ∈ t → P s' → P (f s' e)) → P s → P (t.foldl f s)
  | [], _, _, h => h
  | e :: rest, s, hstep, h =>
    foldl_inv_of_mem P f rest (f s e)
      (fun s' e' he' => hstep s' e' (List.mem_cons_of_mem e he'))
      (hstep s e (List.mem_cons_self e rest) h)

/-- A found pending-connect generation really is suspended on that
channel. -/
theorem findPending_spec :
    ∀ (l : List GenInfo) (cid g : Nat), findPending l cid = some g →
      ∃ gi, l.get? g = some gi ∧ gi.connectPending = some cid := by
  intro l
  induction l with
  | nil => intro cid g h; simp [findPending] at h
  | cons gi rest ih =>
    intro cid g h
    simp only [findPending] at h
    by_cases hcp : gi.connectPending = some cid
    · simp [hcp] at h
      exact ⟨gi, by simp [← h], hcp⟩
    · simp [hcp] at h
      obtain ⟨g0, hg0, rfl⟩ := h
      obtain ⟨gi0, hget, hcp0⟩ := ih cid g0 hg0
      exact ⟨gi0, by simpa using hget, hcp0⟩

/-! ## Channel-level claims -/

/-- C5: a worker context fault (`onError`) rejects every call pending on
the channel at that moment with the fault and clears the pending table,
while an error envelope (`onMessage` of kind `'error'`) rejects only the
matching pending call: the entry for `id` is removed, every other pending
id stays in the table, and the only settlement produced is the rejection
of `id`. -/
theorem c5_context_fault_bulk_error_envelope_local :
    (∀ (c : WorkerConnection) (fault : Val),
      (c.onError fault).1.requests = [] ∧
      (c.onError fault).2 = c.requests.map (fun id => RpcAction.rejected id fault)) ∧
    (∀ (c : WorkerConnection) (id : Nat) (e : Val), c.requests.contains id →
      (c.onMessage (ResponseMsg.error id e)).2 = RpcAction.rejected id e ∧
      (c.onMessage (ResponseMsg.error id e)).1.requests = c.requests.erase id ∧
      ∀ j, j ∈ c.requests → j ≠ id →
        j ∈ (c.onMessage (ResponseMsg.error id e)).1.requests) := by
  constructor
  · intro c fault
    constructor
    · rfl
    · rfl
  · intro c id e h
    have h2 : c.requests.contains (ResponseMsg.id (ResponseMsg.error id e)) = true := h
    unfold WorkerConnection.onMessage
    rw [h2]
    refine ⟨rfl, rfl, ?_⟩
    intro j hj hne
    exact (List.mem_erase_of_ne hne).mpr hj

/-- Witness for C5 at a concrete channel with pending calls 1 and 2. -/
theorem c5_context_fault_bulk_error_envelope_local_witness :
    ((WorkerConnection.mk [1, 2] 3 [] true).onMessage
        (ResponseMsg.error 1 (Val.str "e"))).2
      = RpcAction.rejected 1 (Val.str "e") :=
  (c5_context_fault_bulk_error_envelope_local.2
    (WorkerConnection.mk [1, 2] 3 [] true) 1 (Val.str "e") (by decide)).1

/-- C6 counterexample: an envelope with unrecognized kind `"bogus"` whose
id matches the outstanding call 1 removes that entry from the pending
table, refuting "no pending call is ... removed from the pending table
because of it". -/
theorem c6_counterexample :
    (WorkerConnection.mk [1] 2 [] true).requests = [1] ∧
    ((WorkerConnection.mk [1] 2 [] true).onMessage
        (ResponseMsg.other "bogus" 1)).1.requests = [] ∧
    ((WorkerConnection.mk [1] 2 [] true).onMessage
        (ResponseMsg.other "bogus" 1)).2 = RpcAction.warned "bogus" := by
  decide

/-- C6 amended: an unrecognized-kind envelope is logged and never resolves
or rejects any pending call (no failure propagated), but when its id
matches an outstanding call that entry is deleted from the pending table;
an envelope of any kind whose id matches no outstanding call is a pure
no-op. -/
theorem c6_unknown_kind_warns_stale_id_dropped :
    (∀ (c : WorkerConnection) (kind : String) (id : Nat),
      c.onMessage (ResponseMsg.other kind id)
        = if c.requests.contains id
          then ({ c with requests := c.requests.erase id }, RpcAction.warned kind)
          else (c, RpcAction.dropped)) ∧
    (∀ (c : WorkerConnection) (m : ResponseMsg), c.requests.contains m.id = false →
      c.onMessage m = (c, RpcAction.dropped)) := by
  constructor
  · intro c kind id
    by_cases h : c.requests.contains id
    · simp [WorkerConnection.onMessage, ResponseMsg.id, h]
    · simp [WorkerConnection.onMessage, ResponseMsg.id, h]
  · intro c m h
    unfold WorkerConnection.onMessage
    rw [h]
    simp

/-- Witness for C6's amended statement on a stale id. -/
theorem c6_unknown_kind_warns_stale_id_dropped_witness :
    (WorkerConnection.mk [1] 2 [] true).onMessage (ResponseMsg.success 5 Val.undef)
      = (WorkerConnection.mk [1] 2 [] true, RpcAction.dropped) :=
  c6_unknown_kind_warns_stale_id_dropped.2 (WorkerConnection.mk [1] 2 [] true)
    (ResponseMsg.success 5 Val.undef) (by decide)

/-- C8: on the remote side, any call whose method is not `"constructor"`
arriving before the handler is constructed is answered with an Error
Envelope carrying that call's id; a `"constructor"` call whose
construction succeeds is the first accepted call: it installs the instance
built from the call's args and answers with a success envelope carrying
the id. -/
theorem c8_remote_rejects_before_ctor :
    (∀ (b : RemoteBehavior) (id : Nat) (method : String) (args : List Val),
      method ≠ "constructor" →
      connectWorkerStep b none (Message.call id method args)
        = (none, [Message.error id uninitializedError])) ∧
    (∀ (b : RemoteBehavior) (id : Nat) (args : List Val),
      b.construct args = Except.ok () →
      connectWorkerStep b none (Message.call id "constructor" args)
        = (some args, [Message.success id Val.undef])) := by
  constructor
  · intro b id method args h
    simp [connectWorkerStep, h]
  · intro b id args h
    simp [connectWorkerStep, h]

/-- A demonstration remote class for the C8 witness: construction always
succeeds and every method returns `undef`. -/
def demoBehavior : RemoteBehavior :=
  { construct := fun _ => Except.ok (),
    invoke := fun _ _ _ => Except.ok Val.undef }

/-- Witness for C8 at a concrete pre-construction call. -/
theorem c8_remote_rejects_before_ctor_witness :
    connectWorkerStep demoBehavior none (Message.call 1 "add" [Val.num 2])
      = (none, [Message.error 1 uninitializedError]) :=
  c8_remote_rejects_before_ctor.1 demoBehavior 1 "add" [Val.num 2] (by decide)

/-! ## Proxy-level concrete-trace claims -/

/-- C9 (code bug): `getMethod` looks the method name up in the `methods`
map but never stores the created forwarding function back into it, so a
second access of the same name creates a distinct new function (function
ids 0, then 1) and the cache map stays empty — the claimed return of the
very same function on subsequent accesses does not hold. -/
theorem c9_method_not_cached :
    ((Sim.init []).getMethod "add").2 = 0 ∧
    ((((Sim.init []).getMethod "add").1).getMethod "add").2 = 1 ∧
    ((((Sim.init []).getMethod "add").1).getMethod "add").1.methods = [] := by
  decide

/-- C1 (code bug): after `acquire` and a successful constructor exchange
the proxy is connected; an `add` call is then pending on the connected
channel when `release()` drives the count to zero. The call's status stays
`sentOn` — its promise never settles — and the late worker response on the
disposed channel changes nothing, contradicting the claimed cancellation
rejection. -/
theorem c1_release_leaves_connected_call_unsettled :
    (Sim.run [] [Ev.acquire, Ev.mcall "add" [Val.num 1, Val.num 2],
        Ev.response 0 (ResponseMsg.success 1 Val.undef), Ev.release]).calls
      = [{ name := "add", args := [Val.num 1, Val.num 2],
           status := CallStatus.sentOn 0 2 }] ∧
    (Sim.run [] [Ev.acquire, Ev.mcall "add" [Val.num 1, Val.num 2],
        Ev.response 0 (ResponseMsg.success 1 Val.undef), Ev.release]).getState
      = "disconnected" ∧
    Sim.run [] [Ev.acquire, Ev.mcall "add" [Val.num 1, Val.num 2],
        Ev.response 0 (ResponseMsg.success 1 Val.undef), Ev.release,
        Ev.response 0 (ResponseMsg.success 2 (Val.num 3))]
      = Sim.run [] [Ev.acquire, Ev.mcall "add" [Val.num 1, Val.num 2],
        Ev.response 0 (ResponseMsg.success 1 Val.undef), Ev.release] := by
  decide

/-- C2 counterexample: a method call issued through the proxy before any
acquire leaves the net reference count at zero while `getState()` reports
`'blocked'`, not `'disconnected'`, refuting "it is 'disconnected' whenever
the net count is zero or below" once method calls are interleaved. -/
theorem c2_counterexample :
    (Sim.run [] [Ev.getProxy, Ev.mcall "add" []]).refCount = 0 ∧
    (Sim.run [] [Ev.getProxy, Ev.mcall "add" []]).getState = "blocked" ∧
    ¬ (Sim.run [] [Ev.getProxy, Ev.mcall "add" []]).getState = "disconnected" := by
  decide

/-- C7: a channel is never reused across disconnect/reconnect. Every
connection start appends a brand-new channel (carrying only the
constructor envelope) to the channel list; and in the concrete
fault / disconnect / acquire cycle the reconnection invokes the worker
factory a second time, connects on the new channel (index 1, distinct
from the faulted channel 0), and a call on it succeeds. -/
theorem c7_fresh_channel_every_reconnect :
    (∀ (s : Sim) (g : Nat) (gi : GenInfo), s.gens.get? g = some gi →
      gi.aborted = false →
      (s.startConnect g).channels
        = s.channels
          ++ [{ conn := (WorkerConnection.new.call "constructor" s.ctorArgs (some ())).1,
                ctorOk := false }]) ∧
    ((Sim.run [] [Ev.acquire, Ev.mcall "m" [],
        Ev.response 0 (ResponseMsg.success 1 Val.undef), Ev.mcall "m2" [],
        Ev.fault 0 (Val.str "boom"), Ev.release, Ev.acquire, Ev.mcall "m3" [],
        Ev.response 1 (ResponseMsg.success 1 Val.undef),
        Ev.response 1 (ResponseMsg.success 2 (Val.num 7))]).factoryCount = 2 ∧
     (Sim.run [] [Ev.acquire, Ev.mcall "m" [],
        Ev.response 0 (ResponseMsg.success 1 Val.undef), Ev.mcall "m2" [],
        Ev.fault 0 (Val.str "boom"), Ev.release, Ev.acquire, Ev.mcall "m3" [],
        Ev.response 1 (ResponseMsg.success 1 Val.undef),
        Ev.response 1 (ResponseMsg.success 2 (Val.num 7))]).connState
       = ConnState.connected 1 1 ∧
     ((Sim.run [] [Ev.acquire, Ev.mcall "m" [],
        Ev.response 0 (ResponseMsg.success 1 Val.undef), Ev.mcall "m2" [],
        Ev.fault 0 (Val.str "boom"), Ev.release, Ev.acquire, Ev.mcall "m3" [],
        Ev.response 1 (ResponseMsg.success 1 Val.undef),
        Ev.response 1 (ResponseMsg.success 2 (Val.num 7))]).calls).getLast?
       = some { name := "m3", args := [], status := CallStatus.resolved (Val.num 7) }) := by
  constructor
  · intro s g gi hg ha
    unfold Sim.startConnect
    rw [hg]
    simp [ha]
  · decide

/-- Witness for C7's general conjunct at the state reached by one
acquire. -/
theorem c7_fresh_channel_every_reconnect_witness :
    ((Sim.run [] [Ev.acquire]).startConnect 0).channels
      = (Sim.run [] [Ev.acquire]).channels
        ++ [{ conn := (WorkerConnection.new.call "constructor"
                (Sim.run [] [Ev.acquire]).ctorArgs (some ())).1,
              ctorOk := false }] :=
  c7_fresh_channel_every_reconnect.1 (Sim.run [] [Ev.acquire]) 0 GenInfo.fresh
    (by decide) (by decide)

/-! ## Core-field preservation helpers -/

/-- The fields of `Sim` relevant to the state machine (everything except
the instance id, the instance counter and the closure counter). -/
structure Core where
  refCount : Int
  connState : ConnState
  gens : List GenInfo
  channels : List Chan
  factoryCount : Nat
  calls : List PCall
  ctorArgs : List Val
deriving DecidableEq

/-- Projection of a `Sim` onto its state-machine fields. -/
def Sim.core (s : Sim) : Core :=
  { refCount := s.refCount, connState := s.connState, gens := s.gens,
    channels := s.channels, factoryCount := s.factoryCount,
    calls := s.calls, ctorArgs := s.ctorArgs }

/-- `ensureInstance` either returns the state unchanged or only installs
the instance id. -/
theorem ensureInstance_cases (s : Sim) :
    (s.ensureInstance).1 = s ∨
    (s.ensureInstance).1
      = { s with instanceVer := some s.nextVer, nextVer := s.nextVer + 1 } := by
  unfold Sim.ensureInstance
  cases s.instanceVer <;> simp

/-- `getMethod` either returns the state unchanged or only bumps the
closure counter. -/
theorem getMethod_cases (s : Sim) (name : String) :
    (s.getMethod name).1 = s ∨
    (s.getMethod name).1 = { s with nextFn := s.nextFn + 1 } := by
  unfold Sim.getMethod
  cases s.methods.lookup name <;> simp

/-- The preparation performed at the start of a method call (instance
creation and closure lookup) does not touch the state machine. -/
theorem prep_core (s : Sim) (name : String) :
    Sim.core (((s.ensureInstance).1.getMethod name).1) = Sim.core s := by
  have h1 : Sim.core ((s.ensureInstance).1) = Sim.core s := by
    rcases ensureInstance_cases s with h | h <;> rw [h]
    rfl
  have h2 : Sim.core (((s.ensureInstance).1.getMethod name).1)
      = Sim.core ((s.ensureInstance).1) := by
    rcases getMethod_cases (s.ensureInstance).1 name with h | h <;> rw [h]
    rfl
  rw [h2, h1]

/-! ## No-acquire invariant (claim C3) -/

/-- States reachable without any `acquire`: the worker factory has never
been invoked, no channel exists, and the machine sits in `disconnected`
or `blocked`. -/
def NoAcquireInv (s : Sim) : Prop :=
  s.factoryCount = 0 ∧ s.channels = [] ∧
    (s.connState = ConnState.disconnected ∨
      ∃ g, s.connState = ConnState.blocked g)

/-- Any event other than `acquire` preserves the no-acquire invariant. -/
theorem noAcquireInv_step (s : Sim) (e : Ev) (hne : e ≠ Ev.acquire)
    (h : NoAcquireInv s) : NoAcquireInv (s.step e) := by
  obtain ⟨hf, hch, hst⟩ := h
  cases e with
  | acquire => exact absurd rfl hne
  | getProxy =>
    show NoAcquireInv (s.getProxyFn).1
    unfold Sim.getProxyFn
    rcases ensureInstance_cases s with he | he <;> rw [he] <;>
      exact ⟨hf, hch, hst⟩
  | release =>
    show NoAcquireInv s.release
    unfold Sim.release
    split
    · exact ⟨hf, hch, hst⟩
    · dsimp only
      split
      · unfold Sim.disconnect
        split
        · next heq => exact ⟨hf, hch, Or.inl heq⟩
        · next g heq =>
          split
          · exact ⟨hf, hch, Or.inl rfl⟩
          · exact ⟨hf, hch, Or.inl rfl⟩
        · next g heq =>
          split
          · exact ⟨hf, hch, Or.inl rfl⟩
          · exact ⟨hf, hch, Or.inl rfl⟩
        · next g heq =>
          split
          · exact ⟨hf, hch, Or.inl rfl⟩
          · exact ⟨hf, hch, Or.inl rfl⟩
        · next g cid heq =>
          have heq2 : s.connState = ConnState.connected g cid := heq
          rcases hst with hd | ⟨g2, hb⟩
          · exact absurd (hd.symm.trans heq2) (by simp)
          · exact absurd (hb.symm.trans heq2) (by simp)
      · exact ⟨hf, hch, hst⟩
  | mcall name args =>
    show NoAcquireInv (s.mcall name args)
    have hc := prep_core s name
    have hcs : (((s.ensureInstance).1.getMethod name).1).connState = s.connState :=
      congrArg Core.connState hc
    have hgens : (((s.ensureInstance).1.getMethod name).1).gens = s.gens :=
      congrArg Core.gens hc
    have hchan : (((s.ensureInstance).1.getMethod name).1).channels = s.channels :=
      congrArg Core.channels hc
    have hfac : (((s.ensureInstance).1.getMethod name).1).factoryCount = s.factoryCount :=
      congrArg Core.factoryCount hc
    unfold Sim.mcall
    dsimp only
    split
    · -- prep state is disconnected: a fresh blocked generation is created
      unfold Sim.newGen Sim.attachCall
      dsimp only
      rw [get?_append_self]
      simp only [GenInfo.fresh]
      exact ⟨hfac.trans hf, hchan.trans hch, Or.inr ⟨_, rfl⟩⟩
    · next g heq =>
      -- prep state is blocked g: the call queues on the shared promise
      unfold Sim.attachCall
      split
      · exact ⟨hfac.trans hf, hchan.trans hch, Or.inr ⟨g, heq⟩⟩
      · split
        · exact ⟨hfac.trans hf, hchan.trans hch, Or.inr ⟨g, heq⟩⟩
        · exact ⟨hfac.trans hf, hchan.trans hch, Or.inr ⟨g, heq⟩⟩
        · exact ⟨hfac.trans hf, hchan.trans hch, Or.inr ⟨g, heq⟩⟩
        · unfold Sim.sendOn
          split
          · exact ⟨hfac.trans hf, hchan.trans hch, Or.inr ⟨g, heq⟩⟩
          · next ch heq2 =>
            rw [hchan, hch] at heq2
            simp at heq2
    · next g heq =>
      rw [hcs] at heq
      rcases hst with hd | ⟨g2, hb⟩
      · exact absurd (hd.symm.trans heq) (by simp)
      · exact absurd (hb.symm.trans heq) (by simp)
    · next g heq =>
      rw [hcs] at heq
      rcases hst with hd | ⟨g2, hb⟩
      · exact absurd (hd.symm.trans heq) (by simp)
      · exact absurd (hb.symm.trans heq) (by simp)
    · next g cid heq =>
      rw [hcs] at heq
      rcases hst with hd | ⟨g2, hb⟩
      · exact absurd (hd.symm.trans heq) (by simp)
      · exact absurd (hb.symm.trans heq) (by simp)
  | response cid m =>
    show NoAcquireInv (s.response cid m)
    unfold Sim.response
    split
    · exact ⟨hf, hch, hst⟩
    · next ch heq =>
      rw [hch] at heq
      simp at heq
  | fault cid err =>
    show NoAcquireInv (s.fault cid err)
    unfold Sim.fault
    split
    · exact ⟨hf, hch, hst⟩
    · next ch heq =>
      rw [hch] at heq
      simp at heq

/-- C3: a method call issued while `disconnected` or `blocked` never
triggers channel construction — over any acquire-free trace the worker
factory is never invoked and the state stays `disconnected` or `blocked`;
once `acquire()` is called, construction starts at once (factory invoked,
state `connecting`) and the worker's responses then drive the pending
call to resolution. -/
theorem c3_no_construction_before_acquire :
    (∀ (args : List Val) (t : List Ev), Ev.acquire ∉ t →
      (Sim.run args t).factoryCount = 0 ∧
      ((Sim.run args t).getState = "disconnected" ∨
        (Sim.run args t).getState = "blocked")) ∧
    (∀ (name : String) (a : List Val) (r : Val),
      (Sim.run [] [Ev.getProxy, Ev.mcall name a]).factoryCount = 0 ∧
      (Sim.run [] [Ev.getProxy, Ev.mcall name a, Ev.acquire]).factoryCount = 1 ∧
      (Sim.run [] [Ev.getProxy, Ev.mcall name a, Ev.acquire]).getState = "connecting" ∧
      (Sim.run [] [Ev.getProxy, Ev.mcall name a, Ev.acquire,
        Ev.response 0 (ResponseMsg.success 1 Val.undef),
        Ev.response 0 (ResponseMsg.success 2 r)]).calls
        = [{ name := name, args := a, status := CallStatus.resolved r }]) := by
  constructor
  · intro args t ht
    have hinv : NoAcquireInv (Sim.run args t) := by
      unfold Sim.run
      refine foldl_inv_of_mem NoAcquireInv Sim.step t (Sim.init args) ?_ ?_
      · intro s' e he hP
        exact noAcquireInv_step s' e (fun hacq => ht (hacq ▸ he)) hP
      · exact ⟨rfl, rfl, Or.inl rfl⟩
    obtain ⟨hf, hch, hst⟩ := hinv
    refine ⟨hf, ?_⟩
    unfold Sim.getState
    rcases hst with hd | ⟨g, hb⟩
    · cases hi : (Sim.run args t).instanceVer <;> simp [hi, hd, ConnState.tag]
    · cases hi : (Sim.run args t).instanceVer <;> simp [hi, hb, ConnState.tag]
  · intro name a r
    refine ⟨rfl, rfl, rfl, rfl⟩

/-- Witness for C3's acquire-free conjunct on a concrete trace. -/
theorem c3_no_construction_before_acquire_witness :
    (Sim.run [] [Ev.getProxy, Ev.mcall "add" [Val.num 1]]).factoryCount = 0 ∧
    ((Sim.run [] [Ev.getProxy, Ev.mcall "add" [Val.num 1]]).getState = "disconnected" ∨
      (Sim.run [] [Ev.getProxy, Ev.mcall "add" [Val.num 1]]).getState = "blocked") :=
  c3_no_construction_before_acquire.1 [] [Ev.getProxy, Ev.mcall "add" [Val.num 1]]
    (by decide)

/-! ## Master reachability invariant (claims C2 and C4) -/

/-- Invariant tying the connection state to its generation bookkeeping,
the reference count and the channels:
- without an instance the machine is disconnected;
- `blocked`/`ready` generations are fresh, and `ready` implies a positive
  count;
- a `connecting` generation is unaborted, its promise unresolved, and the
  count positive;
- a `connected` state holds an unaborted generation whose promise resolved
  with exactly the held channel, a positive count, and a channel whose
  constructor call succeeded;
- every unaborted generation is the current one;
- every suspended `connect()` refers to an existing channel. -/
structure SimInv (s : Sim) : Prop where
  instNone : s.instanceVer = none → s.connState = ConnState.disconnected
  blockedFresh : ∀ g, s.connState = ConnState.blocked g →
    s.gens.get? g = some GenInfo.fresh
  readyFresh : ∀ g, s.connState = ConnState.ready g →
    s.gens.get? g = some GenInfo.fresh ∧ 0 < s.refCount
  connectingInv : ∀ g, s.connState = ConnState.connecting g →
    ∃ gi, s.gens.get? g = some gi ∧ gi.aborted = false ∧
      (∀ cid, gi.promise ≠ PromiseSt.resolvedOk cid) ∧ 0 < s.refCount
  connectedInv : ∀ g cid, s.connState = ConnState.connected g cid →
    s.gens.get? g = some (GenInfo.mk false (PromiseSt.resolvedOk cid) none) ∧
      0 < s.refCount ∧
      ∃ ch, s.channels.get? cid = some ch ∧ ch.ctorOk = true
  unabortedCur : ∀ g gi, s.gens.get? g = some gi → gi.aborted = false →
    s.curGen = some g
  cpBound : ∀ g gi cid, s.gens.get? g = some gi →
    gi.connectPending = some cid → ∃ ch, s.channels.get? cid = some ch

/-- `curGen` only depends on the connection state. -/
theorem curGen_congr (s s' : Sim) (hc : s'.connState = s.connState) :
    s'.curGen = s.curGen := by
  unfold Sim.curGen
  rw [hc]

/-- Transport of the invariant along equality of the relevant fields. -/
theorem SimInv.of_fields {s s' : Sim} (h : SimInv s)
    (hi : s'.instanceVer = none → s.instanceVer = none)
    (hc : s'.connState = s.connState)
    (hg : s'.gens = s.gens) (hch : s'.channels = s.channels)
    (hr : s'.refCount = s.refCount) : SimInv s' := by
  obtain ⟨h1, h2, h3, h4, h5, h6, h7⟩ := h
  constructor
  · intro hn; rw [hc]; exact h1 (hi hn)
  · intro g hb; rw [hg]; exact h2 g (by rw [← hc]; exact hb)
  · intro g hb; rw [hg, hr]; exact h3 g (by rw [← hc]; exact hb)
  · intro g hb; rw [hg, hr]; exact h4 g (by rw [← hc]; exact hb)
  · intro g cid hb; rw [hg, hr, hch]; exact h5 g cid (by rw [← hc]; exact hb)
  · intro g gi hget ha
    rw [curGen_congr s s' hc]
    exact h6 g gi (by rw [← hg]; exact hget) ha
  · intro g gi cid hget hcp
    rw [hch]
    exact h7 g gi cid (by rw [← hg]; exact hget) hcp

/-- The initial state satisfies the invariant. -/
theorem inv_init (args : List Val) : SimInv (Sim.init args) := by
  constructor
  · intro _; rfl
  · intro g hb; exact absurd hb (by simp [Sim.init])
  · intro g hb; exact absurd hb (by simp [Sim.init])
  · intro g hb; exact absurd hb (by simp [Sim.init])
  · intro g cid hb; exact absurd hb (by simp [Sim.init])
  · intro g gi hget _; exact absurd hget (by simp [Sim.init])
  · intro g gi cid hget _; exact absurd hget (by simp [Sim.init])

/-- The current generation determines the shape of the connection
state. -/
theorem curGen_some (s : Sim) (g : Nat) (h : s.curGen = some g) :
    s.connState = ConnState.blocked g ∨ s.connState = ConnState.ready g ∨
    s.connState = ConnState.connecting g ∨
    ∃ cid, s.connState = ConnState.connected g cid := by
  unfold Sim.curGen at h
  cases hcs : s.connState with
  | disconnected => rw [hcs] at h; exact absurd h (by simp)
  | blocked g2 =>
    rw [hcs] at h; simp at h; subst h; exact Or.inl rfl
  | ready g2 =>
    rw [hcs] at h; simp at h; subst h; exact Or.inr (Or.inl rfl)
  | connecting g2 =>
    rw [hcs] at h; simp at h; subst h; exact Or.inr (Or.inr (Or.inl rfl))
  | connected g2 cid =>
    rw [hcs] at h; simp at h; subst h; exact Or.inr (Or.inr (Or.inr ⟨cid, rfl⟩))

/-- An unaborted generation with a suspended connect is the current
`connecting` generation. -/
theorem unaborted_cp_connecting (s : Sim) (g cid : Nat) (gi : GenInfo)
    (h : SimInv s) (hget : s.gens.get? g = some gi) (ha : gi.aborted = false)
    (hcp : gi.connectPending = some cid) :
    s.connState = ConnState.connecting g := by
  have hcur := h.unabortedCur g gi hget ha
  rcases curGen_some s g hcur with hb | hr | hc | ⟨cid2, hcc⟩
  · have hf := h.blockedFresh g hb
    rw [hget] at hf
    simp at hf
    rw [hf] at hcp
    simp [GenInfo.fresh] at hcp
  · have hf := (h.readyFresh g hr).1
    rw [hget] at hf
    simp at hf
    rw [hf] at hcp
    simp [GenInfo.fresh] at hcp
  · exact hc
  · have hf := (h.connectedInv g cid2 hcc).1
    rw [hget] at hf
    simp at hf
    rw [hf] at hcp
    simp at hcp

/-- The invariant is preserved when a suspended `connect()` resumes with
its constructor call's settlement. -/
theorem inv_finishConnect (s : Sim) (g cid : Nat) (ok : Bool) (e : Val)
    (h : SimInv s) (gi : GenInfo) (hget : s.gens.get? g = some gi)
    (hcp : gi.connectPending = some cid) :
    SimInv (s.finishConnect g cid ok e) := by
  have hglt : g < s.gens.length := lt_of_get?_eq_some _ _ _ hget
  obtain ⟨ch0, hch0⟩ := h.cpBound g gi cid hget hcp
  have hclt : cid < s.channels.length := lt_of_get?_eq_some _ _ _ hch0
  unfold Sim.finishConnect
  rw [hget]
  cases ok with
  | false =>
    -- the constructor call rejected: the shared promise rejects with `e`,
    -- the connection state is left as it was
    simp only [Bool.false_eq_true, if_false]
    unfold Sim.rejectWaiting
    constructor
    · intro hn
      exact h.instNone hn
    · intro g2 hb
      have hb2 : s.connState = ConnState.blocked g2 := hb
      have hne : g2 ≠ g := by
        intro hgg
        subst hgg
        have hf := h.blockedFresh g2 hb2
        rw [hget] at hf
        simp at hf
        rw [hf] at hcp
        simp [GenInfo.fresh] at hcp
      exact (get?_setIdx_ne s.gens g g2 _ (fun hx => hne hx.symm)).trans
        (h.blockedFresh g2 hb2)
    · intro g2 hb
      have hb2 : s.connState = ConnState.ready g2 := hb
      have hne : g2 ≠ g := by
        intro hgg
        subst hgg
        have hf := (h.readyFresh g2 hb2).1
        rw [hget] at hf
        simp at hf
        rw [hf] at hcp
        simp [GenInfo.fresh] at hcp
      exact ⟨(get?_setIdx_ne s.gens g g2 _ (fun hx => hne hx.symm)).trans
        (h.readyFresh g2 hb2).1, (h.readyFresh g2 hb2).2⟩
    · intro g2 hb
      have hb2 : s.connState = ConnState.connecting g2 := hb
      obtain ⟨gi2, hget2, ha2, hpr2, hpos2⟩ := h.connectingInv g2 hb2
      by_cases hgg : g2 = g
      · subst hgg
        refine ⟨GenInfo.mk gi.aborted (PromiseSt.rejectedWith e) none, ?_, ?_, ?_, hpos2⟩
        · exact get?_setIdx_self s.gens g2 _ hglt
        · rw [hget] at hget2
          simp at hget2
          rw [← hget2] at ha2
          exact ha2
        · intro cid2
          simp
      · refine ⟨gi2, ?_, ha2, hpr2, hpos2⟩
        exact (get?_setIdx_ne s.gens g g2 _ (fun hx => hgg hx.symm)).trans hget2
    · intro g2 cid2 hb
      have hb2 : s.connState = ConnState.connected g2 cid2 := hb
      obtain ⟨hget2, hpos2, ch2, hch2, hok2⟩ := h.connectedInv g2 cid2 hb2
      have hne : g2 ≠ g := by
        intro hgg
        subst hgg
        rw [hget] at hget2
        simp at hget2
        rw [hget2] at hcp
        simp at hcp
      refine ⟨(get?_setIdx_ne s.gens g g2 _ (fun hx => hne hx.symm)).trans hget2,
        hpos2, ch2, hch2, hok2⟩
    · intro g2 gi2 hget2 ha2
      by_cases hgg : g2 = g
      · subst hgg
        have hx := (get?_setIdx_self s.gens g2
          (GenInfo.mk gi.aborted (PromiseSt.rejectedWith e) none) hglt)
        have hxe := Option.some.inj (hx.symm.trans hget2)
        rw [← hxe] at ha2
        have ha3 : gi.aborted = false := ha2
        exact (curGen_congr s _ rfl).trans (h.unabortedCur g2 gi hget ha3)
      · have hget3 : s.gens.get? g2 = some gi2 :=
          (get?_setIdx_ne s.gens g g2 _ (fun hx => hgg hx.symm)).symm.trans hget2
        exact (curGen_congr s _ rfl).trans (h.unabortedCur g2 gi2 hget3 ha2)
    · intro g2 gi2 cid2 hget2 hcp2
      by_cases hgg : g2 = g
      · subst hgg
        have hx := (get?_setIdx_self s.gens g2
          (GenInfo.mk gi.aborted (PromiseSt.rejectedWith e) none) hglt)
        have hxe := Option.some.inj (hx.symm.trans hget2)
        rw [← hxe] at hcp2
        simp at hcp2
      · have hget3 : s.gens.get? g2 = some gi2 :=
          (get?_setIdx_ne s.gens g g2 _ (fun hx => hgg hx.symm)).symm.trans hget2
        exact h.cpBound g2 gi2 cid2 hget3 hcp2
  | true =>
    simp only [reduceIte]
    cases ha : gi.aborted with
    | true =>
      -- aborted mid-construction: the fresh channel is disposed and the
      -- shared promise rejects with the abort error
      simp only [reduceIte]
      unfold Sim.disposeChan Sim.rejectWaiting
      simp only [hch0]
      constructor
      · intro hn
        exact h.instNone hn
      · intro g2 hb
        have hb2 : s.connState = ConnState.blocked g2 := hb
        have hne : g2 ≠ g := by
          intro hgg
          subst hgg
          have hf := h.blockedFresh g2 hb2
          rw [hget] at hf
          simp at hf
          rw [hf] at hcp
          simp [GenInfo.fresh] at hcp
        exact (get?_setIdx_ne s.gens g g2 _ (fun hx => hne hx.symm)).trans
          (h.blockedFresh g2 hb2)
      · intro g2 hb
        have hb2 : s.connState = ConnState.ready g2 := hb
        have hne : g2 ≠ g := by
          intro hgg
          subst hgg
          have hf := (h.readyFresh g2 hb2).1
          rw [hget] at hf
          simp at hf
          rw [hf] at hcp
          simp [GenInfo.fresh] at hcp
        exact ⟨(get?_setIdx_ne s.gens g g2 _ (fun hx => hne hx.symm)).trans
          (h.readyFresh g2 hb2).1, (h.readyFresh g2 hb2).2⟩
      · intro g2 hb
        have hb2 : s.connState = ConnState.connecting g2 := hb
        obtain ⟨gi2, hget2, ha2, hpr2, hpos2⟩ := h.connectingInv g2 hb2
        have hne : g2 ≠ g := by
          intro hgg
          subst hgg
          rw [hget] at hget2
          simp at hget2
          rw [← hget2] at ha2
          rw [ha] at ha2
          exact Bool.noConfusion ha2
        refine ⟨gi2, ?_, ha2, hpr2, hpos2⟩
        exact (get?_setIdx_ne s.gens g g2 _ (fun hx => hne hx.symm)).trans hget2
      · intro g2 cid2 hb
        have hb2 : s.connState = ConnState.connected g2 cid2 := hb
        obtain ⟨hget2, hpos2, ch2, hch2, hok2⟩ := h.connectedInv g2 cid2 hb2
        have hne : g2 ≠ g := by
          intro hgg
          subst hgg
          rw [hget] at hget2
          simp at hget2
          rw [hget2] at hcp
          simp at hcp
        refine ⟨(get?_setIdx_ne s.gens g g2 _ (fun hx => hne hx.symm)).trans hget2,
          hpos2, ?_⟩
        by_cases hcc : cid2 = cid
        · subst hcc
          rw [hch0] at hch2
          simp at hch2
          refine ⟨{ ch0 with conn := ch0.conn.dispose }, ?_, ?_⟩
          · exact get?_setIdx_self s.channels cid2 _ hclt
          · rw [← hch2] at hok2
            exact hok2
        · exact ⟨ch2, (get?_setIdx_ne s.channels cid cid2 _
            (fun hx => hcc hx.symm)).trans hch2, hok2⟩
      · intro g2 gi2 hget2 ha2
        by_cases hgg : g2 = g
        · subst hgg
          have hx := (get?_setIdx_self s.gens g2
            (GenInfo.mk true PromiseSt.rejectedAbort none) hglt)
          have hxe := Option.some.inj (hx.symm.trans hget2)
          rw [← hxe] at ha2
          exact Bool.noConfusion ha2
        · have hget3 : s.gens.get? g2 = some gi2 :=
            (get?_setIdx_ne s.gens g g2 _ (fun hx => hgg hx.symm)).symm.trans hget2
          exact (curGen_congr s _ rfl).trans (h.unabortedCur g2 gi2 hget3 ha2)
      · intro g2 gi2 cid2 hget2 hcp2
        by_cases hgg : g2 = g
        · subst hgg
          have hx := (get?_setIdx_self s.gens g2
            (GenInfo.mk true PromiseSt.rejectedAbort none) hglt)
          have hxe := Option.some.inj (hx.symm.trans hget2)
          rw [← hxe] at hcp2
          simp at hcp2
        · have hget3 : s.gens.get? g2 = some gi2 :=
            (get?_setIdx_ne s.gens g g2 _ (fun hx => hgg hx.symm)).symm.trans hget2
          obtain ⟨ch2, hch2⟩ := h.cpBound g2 gi2 cid2 hget3 hcp2
          by_cases hcc : cid2 = cid
          · subst hcc
            exact ⟨{ ch0 with conn := ch0.conn.dispose },
              get?_setIdx_self s.channels cid2 _ hclt⟩
          · exact ⟨ch2, (get?_setIdx_ne s.channels cid cid2 _
              (fun hx => hcc hx.symm)).trans hch2⟩
    | false =>
      -- successful construction with an unaborted controller: the state
      -- becomes connected, the shared promise resolves, waiting calls are
      -- sent on the new channel
      have hcs : s.connState = ConnState.connecting g :=
        unaborted_cp_connecting s g cid gi h hget ha hcp
      obtain ⟨gi9, hget9, ha9, hpr9, hpos9⟩ := h.connectingInv g hcs
      simp only [Bool.false_eq_true, if_false]
      simp only [hch0]
      unfold Sim.flushWaiting
      have hx1 : (setIdx s.channels cid { ch0 with ctorOk := true }).get? cid
          = some { ch0 with ctorOk := true } :=
        get?_setIdx_self s.channels cid _ hclt
      simp only [hx1]
      constructor
      · intro hn
        have hd := h.instNone hn
        rw [hcs] at hd
        exact absurd hd (by simp)
      · intro g2 hb
        exact absurd hb (by simp)
      · intro g2 hb
        exact absurd hb (by simp)
      · intro g2 hb
        exact absurd hb (by simp)
      · intro g2 cid2 hb
        have hb2 : ConnState.connected g cid = ConnState.connected g2 cid2 := hb
        cases hb2
        refine ⟨?_, hpos9, ?_⟩
        · exact get?_setIdx_self s.gens g _ hglt
        · exact ⟨_, get?_setIdx_self (setIdx s.channels cid
            (Chan.mk ch0.conn true)) cid _
            (by rw [length_setIdx]; exact hclt), rfl⟩
      · intro g2 gi2 hget2 ha2
        by_cases hgg : g2 = g
        · subst hgg
          exact (curGen_congr _ _ rfl).trans rfl
        · have hget3 : s.gens.get? g2 = some gi2 :=
            (get?_setIdx_ne s.gens g g2 _ (fun hx => hgg hx.symm)).symm.trans hget2
          have := h.unabortedCur g2 gi2 hget3 ha2
          rw [Sim.curGen] at this
          rw [hcs] at this
          simp at this
          exact absurd this.symm hgg
      · intro g2 gi2 cid2 hget2 hcp2
        by_cases hgg : g2 = g
        · subst hgg
          have hx := (get?_setIdx_self s.gens g2
            (GenInfo.mk false (PromiseSt.resolvedOk cid) none) hglt)
          have hxe := Option.some.inj (hx.symm.trans hget2)
          rw [← hxe] at hcp2
          simp at hcp2
        · have hget3 : s.gens.get? g2 = some gi2 :=
            (get?_setIdx_ne s.gens g g2 _ (fun hx => hgg hx.symm)).symm.trans hget2
          obtain ⟨ch2, hch2⟩ := h.cpBound g2 gi2 cid2 hget3 hcp2
          by_cases hcc : cid2 = cid
          · subst hcc
            exact ⟨_, get?_setIdx_self (setIdx s.channels cid2
              (Chan.mk ch0.conn true)) cid2 _
              (by rw [length_setIdx]; exact hclt)⟩
          · exact ⟨ch2, (get?_setIdx_ne (setIdx s.channels cid
              (Chan.mk ch0.conn true)) cid cid2 _ (fun hx => hcc hx.symm)).trans
              ((get?_setIdx_ne s.channels cid cid2 (Chan.mk ch0.conn true)
                (fun hx => hcc hx.symm)).trans hch2)⟩

/-- `ensureInstance` always yields a state with an instance id. -/
theorem ensureInstance_isSome (s : Sim) :
    ((s.ensureInstance).1).instanceVer = some ((s.ensureInstance).2) := by
  unfold Sim.ensureInstance
  cases hi : s.instanceVer with
  | some v => exact hi
  | none => rfl

/-- The preparation of a method call yields a state with an instance. -/
theorem prep_isSome (s : Sim) (name : String) :
    (((s.ensureInstance).1.getMethod name).1).instanceVer
      = some ((s.ensureInstance).2) := by
  rcases getMethod_cases (s.ensureInstance).1 name with hg | hg <;> rw [hg] <;>
    exact ensureInstance_isSome s

/-- `settleSent` only rewrites call statuses. -/
theorem inv_settleSent (s : Sim) (cid id : Nat) (st : CallStatus)
    (h : SimInv s) : SimInv (s.settleSent cid id st) :=
  SimInv.of_fields h (fun hn => hn) rfl rfl rfl rfl

/-- Replacing only the message-processing state of one channel (keeping
its `ctorOk` flag) preserves the invariant. -/
theorem inv_setConn (s : Sim) (cid : Nat) (ch : Chan) (conn2 : WorkerConnection)
    (hch : s.channels.get? cid = some ch) (h : SimInv s) :
    SimInv { s with channels := setIdx s.channels cid (Chan.mk conn2 ch.ctorOk) } := by
  obtain ⟨h1, h2, h3, h4, h5, h6, h7⟩ := h
  constructor
  · exact h1
  · exact h2
  · exact h3
  · exact h4
  · intro g2 cid2 hb
    obtain ⟨hget2, hpos2, ch2, hch2, hok2⟩ := h5 g2 cid2 hb
    refine ⟨hget2, hpos2, ?_⟩
    by_cases hcc : cid2 = cid
    · subst hcc
      rw [hch] at hch2
      simp at hch2
      refine ⟨Chan.mk conn2 ch.ctorOk, ?_, ?_⟩
      · exact get?_setIdx_self s.channels cid2 _ (lt_of_get?_eq_some _ _ _ hch)
      · rw [← hch2] at hok2
        exact hok2
    · exact ⟨ch2, (get?_setIdx_ne s.channels cid cid2 _
        (fun hx => hcc hx.symm)).trans hch2, hok2⟩
  · intro g2 gi2 hget2 ha2
    exact (curGen_congr s _ rfl).trans (h6 g2 gi2 hget2 ha2)
  · intro g2 gi2 cid2 hget2 hcp2
    obtain ⟨ch2, hch2⟩ := h7 g2 gi2 cid2 hget2 hcp2
    by_cases hcc : cid2 = cid
    · subst hcc
      exact ⟨Chan.mk conn2 ch.ctorOk,
        get?_setIdx_self s.channels cid2 _ (lt_of_get?_eq_some _ _ _ hch)⟩
    · exact ⟨ch2, (get?_setIdx_ne s.channels cid cid2 _
        (fun hx => hcc hx.symm)).trans hch2⟩

/-- Attaching a call to a generation whose shared promise has not resolved
only appends to the call list. -/
theorem inv_attachCall (s : Sim) (g : Nat) (name : String) (args : List Val)
    (h : SimInv s) (gi : GenInfo) (hget : s.gens.get? g = some gi)
    (hnres : ∀ cid, gi.promise ≠ PromiseSt.resolvedOk cid) :
    SimInv (s.attachCall g name args) := by
  unfold Sim.attachCall
  rw [hget]
  obtain ⟨ab, pr, cp⟩ := gi
  cases pr with
  | pending => exact SimInv.of_fields h (fun hn => hn) rfl rfl rfl rfl
  | rejectedAbort => exact SimInv.of_fields h (fun hn => hn) rfl rfl rfl rfl
  | rejectedWith e2 => exact SimInv.of_fields h (fun hn => hn) rfl rfl rfl rfl
  | resolvedOk cid => exact absurd rfl (hnres cid)

/-- Creating a fresh blocked generation from `disconnected` (the
`tryConnect` `disconnected` case), given an instance exists. -/
theorem inv_newBlocked (s : Sim) (h : SimInv s)
    (hd : s.connState = ConnState.disconnected) (hi : s.instanceVer ≠ none) :
    SimInv { s with gens := s.gens ++ [GenInfo.fresh],
                    connState := ConnState.blocked s.gens.length } := by
  obtain ⟨h1, h2, h3, h4, h5, h6, h7⟩ := h
  constructor
  · intro hn; exact absurd hn hi
  · intro g2 hb
    have hb2 : ConnState.blocked s.gens.length = ConnState.blocked g2 := hb
    cases hb2
    exact get?_append_self s.gens GenInfo.fresh
  · intro g2 hb; exact absurd hb (by simp)
  · intro g2 hb; exact absurd hb (by simp)
  · intro g2 cid2 hb; exact absurd hb (by simp)
  · intro g2 gi2 hget2 ha2
    have hlen : g2 < s.gens.length + 1 := by
      have := lt_of_get?_eq_some _ _ _ hget2
      simpa using this
    by_cases hgg : g2 = s.gens.length
    · subst hgg
      rfl
    · have hlt : g2 < s.gens.length := by omega
      have hget3 : s.gens.get? g2 = some gi2 :=
        (get?_append_lt s.gens [GenInfo.fresh] g2 hlt).symm.trans hget2
      have := h6 g2 gi2 hget3 ha2
      unfold Sim.curGen at this
      rw [hd] at this
      simp at this
  · intro g2 gi2 cid2 hget2 hcp2
    have hlen : g2 < s.gens.length + 1 := by
      have := lt_of_get?_eq_some _ _ _ hget2
      simpa using this
    by_cases hgg : g2 = s.gens.length
    · subst hgg
      rw [get?_append_self] at hget2
      simp at hget2
      rw [← hget2] at hcp2
      simp [GenInfo.fresh] at hcp2
    · have hlt : g2 < s.gens.length := by omega
      have hget3 : s.gens.get? g2 = some gi2 :=
        (get?_append_lt s.gens [GenInfo.fresh] g2 hlt).symm.trans hget2
      exact h7 g2 gi2 cid2 hget3 hcp2

/-- Creating a fresh ready generation from `disconnected` (the `ready()`
`disconnected` case), given an instance exists and the count is
positive. -/
theorem inv_newReady (s : Sim) (h : SimInv s)
    (hd : s.connState = ConnState.disconnected) (hi : s.instanceVer ≠ none)
    (hpos : 0 < s.refCount) :
    SimInv { s with gens := s.gens ++ [GenInfo.fresh],
                    connState := ConnState.ready s.gens.length } := by
  obtain ⟨h1, h2, h3, h4, h5, h6, h7⟩ := h
  constructor
  · intro hn; exact absurd hn hi
  · intro g2 hb; exact absurd hb (by simp)
  · intro g2 hb
    have hb2 : ConnState.ready s.gens.length = ConnState.ready g2 := hb
    cases hb2
    exact ⟨get?_append_self s.gens GenInfo.fresh, hpos⟩
  · intro g2 hb; exact absurd hb (by simp)
  · intro g2 cid2 hb; exact absurd hb (by simp)
  · intro g2 gi2 hget2 ha2
    have hlen : g2 < s.gens.length + 1 := by
      have := lt_of_get?_eq_some _ _ _ hget2
      simpa using this
    by_cases hgg : g2 = s.gens.length
    · subst hgg
      rfl
    · have hlt : g2 < s.gens.length := by omega
      have hget3 : s.gens.get? g2 = some gi2 :=
        (get?_append_lt s.gens [GenInfo.fresh] g2 hlt).symm.trans hget2
      have := h6 g2 gi2 hget3 ha2
      unfold Sim.curGen at this
      rw [hd] at this
      simp at this
  · intro g2 gi2 cid2 hget2 hcp2
    have hlen : g2 < s.gens.length + 1 := by
      have := lt_of_get?_eq_some _ _ _ hget2
      simpa using this
    by_cases hgg : g2 = s.gens.length
    · subst hgg
      rw [get?_append_self] at hget2
      simp at hget2
      rw [← hget2] at hcp2
      simp [GenInfo.fresh] at hcp2
    · have hlt : g2 < s.gens.length := by omega
      have hget3 : s.gens.get? g2 = some gi2 :=
        (get?_append_lt s.gens [GenInfo.fresh] g2 hlt).symm.trans hget2
      exact h7 g2 gi2 cid2 hget3 hcp2

/-- Moving `blocked → ready` (the `ready()` `blocked` case) preserves the
invariant when the count is positive. -/
theorem inv_toReady (s : Sim) (g : Nat) (h : SimInv s) (hpos : 0 < s.refCount)
    (hb : s.connState = ConnState.blocked g) :
    SimInv { s with connState := ConnState.ready g } := by
  obtain ⟨h1, h2, h3, h4, h5, h6, h7⟩ := h
  constructor
  · intro hn
    have := h1 hn
    rw [hb] at this
    exact absurd this (by simp)
  · intro g2 hb2; exact absurd hb2 (by simp)
  · intro g2 hb2
    have hb3 : ConnState.ready g = ConnState.ready g2 := hb2
    cases hb3
    exact ⟨h2 g hb, hpos⟩
  · intro g2 hb2; exact absurd hb2 (by simp)
  · intro g2 cid2 hb2; exact absurd hb2 (by simp)
  · intro g2 gi2 hget2 ha2
    have := h6 g2 gi2 hget2 ha2
    unfold Sim.curGen at this
    rw [hb] at this
    simp at this
    subst this
    rfl
  · exact h7

/-- Starting a connection from a `ready` state (the `tryConnect` `ready`
case) preserves the invariant. -/
theorem inv_startConnect (s : Sim) (g : Nat) (h : SimInv s)
    (hcs : s.connState = ConnState.ready g) :
    SimInv (s.startConnect g) := by
  obtain ⟨hget, hpos⟩ := h.readyFresh g hcs
  have hglt : g < s.gens.length := lt_of_get?_eq_some _ _ _ hget
  unfold Sim.startConnect
  rw [hget]
  simp only [GenInfo.fresh, Bool.false_eq_true, if_false]
  obtain ⟨h1, h2, h3, h4, h5, h6, h7⟩ := h
  constructor
  · intro hn
    have := h1 hn
    rw [hcs] at this
    exact absurd this (by simp)
  · intro g2 hb2; exact absurd hb2 (by simp)
  · intro g2 hb2; exact absurd hb2 (by simp)
  · intro g2 hb2
    have hb3 : ConnState.connecting g = ConnState.connecting g2 := hb2
    cases hb3
    refine ⟨GenInfo.mk false PromiseSt.pending (some s.channels.length), ?_, rfl, ?_, hpos⟩
    · exact get?_setIdx_self s.gens g _ hglt
    · intro cid2
      simp
  · intro g2 cid2 hb2; exact absurd hb2 (by simp)
  · intro g2 gi2 hget2 ha2
    by_cases hgg : g2 = g
    · subst hgg
      rfl
    · have hget3 : s.gens.get? g2 = some gi2 :=
        (get?_setIdx_ne s.gens g g2 _ (fun hx => hgg hx.symm)).symm.trans hget2
      have := h6 g2 gi2 hget3 ha2
      unfold Sim.curGen at this
      rw [hcs] at this
      simp at this
      exact absurd this.symm hgg
  · intro g2 gi2 cid2 hget2 hcp2
    by_cases hgg : g2 = g
    · subst hgg
      have hx := get?_setIdx_self s.gens g2
        (GenInfo.mk false PromiseSt.pending (some s.channels.length)) hglt
      have hxe := Option.some.inj (hx.symm.trans hget2)
      rw [← hxe] at hcp2
      simp at hcp2
      subst hcp2
      exact ⟨_, get?_append_self s.channels _⟩
    · have hget3 : s.gens.get? g2 = some gi2 :=
        (get?_setIdx_ne s.gens g g2 _ (fun hx => hgg hx.symm)).symm.trans hget2
      obtain ⟨ch2, hch2⟩ := h7 g2 gi2 cid2 hget3 hcp2
      exact ⟨ch2, (get?_append_lt s.channels _ cid2
        (lt_of_get?_eq_some _ _ _ hch2)).trans hch2⟩

/-- A call sent immediately on the connected channel (the `tryConnect`
`connected` case) preserves the invariant. -/
theorem inv_sendOn_connected (s : Sim) (g cid : Nat) (name : String)
    (args : List Val) (h : SimInv s)
    (hcs : s.connState = ConnState.connected g cid) :
    SimInv (s.sendOn cid name args) := by
  obtain ⟨hget, hpos, ch, hch, hok⟩ := h.connectedInv g cid hcs
  unfold Sim.sendOn
  rw [hch]
  obtain ⟨h1, h2, h3, h4, h5, h6, h7⟩ := h
  constructor
  · intro hn
    have := h1 hn
    rw [hcs] at this
    exact absurd this (by simp)
  · intro g2 hb2
    have hb3 : s.connState = ConnState.blocked g2 := hb2
    rw [hcs] at hb3
    exact absurd hb3 (by simp)
  · intro g2 hb2
    have hb3 : s.connState = ConnState.ready g2 := hb2
    rw [hcs] at hb3
    exact absurd hb3 (by simp)
  · intro g2 hb2
    have hb3 : s.connState = ConnState.connecting g2 := hb2
    rw [hcs] at hb3
    exact absurd hb3 (by simp)
  · intro g2 cid2 hb2
    have hb3 : s.connState = ConnState.connected g2 cid2 := hb2
    rw [hcs] at hb3
    have hg2 : g = g2 := by cases hb3; rfl
    have hc2 : cid = cid2 := by cases hb3; rfl
    subst hg2
    subst hc2
    refine ⟨hget, hpos, ?_⟩
    refine ⟨Chan.mk (ch.conn.call name args (some ())).1 ch.ctorOk, ?_, ?_⟩
    · exact get?_setIdx_self s.channels cid _ (lt_of_get?_eq_some _ _ _ hch)
    · exact hok
  · intro g2 gi2 hget2 ha2
    exact (curGen_congr s _ rfl).trans (h6 g2 gi2 hget2 ha2)
  · intro g2 gi2 cid2 hget2 hcp2
    obtain ⟨ch2, hch2⟩ := h7 g2 gi2 cid2 hget2 hcp2
    by_cases hcc : cid2 = cid
    · subst hcc
      exact ⟨_, get?_setIdx_self s.channels cid2 _ (lt_of_get?_eq_some _ _ _ hch)⟩
    · exact ⟨ch2, (get?_setIdx_ne s.channels cid cid2 _
        (fun hx => hcc hx.symm)).trans hch2⟩

/-- A disconnected state satisfies the invariant as soon as no generation
is unaborted and every suspended connect still points at a channel. -/
theorem inv_disconnected_state (s' : Sim)
    (hd : s'.connState = ConnState.disconnected)
    (hnoua : ∀ g gi, s'.gens.get? g = some gi → gi.aborted = false → False)
    (hcp : ∀ g gi cid, s'.gens.get? g = some gi → gi.connectPending = some cid →
      ∃ ch, s'.channels.get? cid = some ch) : SimInv s' := by
  constructor
  · intro _; exact hd
  · intro g hb
    have hb2 : s'.connState = ConnState.blocked g := hb
    rw [hd] at hb2
    exact absurd hb2 (by simp)
  · intro g hb
    have hb2 : s'.connState = ConnState.ready g := hb
    rw [hd] at hb2
    exact absurd hb2 (by simp)
  · intro g hb
    have hb2 : s'.connState = ConnState.connecting g := hb
    rw [hd] at hb2
    exact absurd hb2 (by simp)
  · intro g cid hb
    have hb2 : s'.connState = ConnState.connected g cid := hb
    rw [hd] at hb2
    exact absurd hb2 (by simp)
  · intro g gi hget ha
    exact (hnoua g gi hget ha).elim
  · exact hcp

/-- `getProxy()` preserves the invariant. -/
theorem inv_getProxyFn (s : Sim) (h : SimInv s) : SimInv (s.getProxyFn).1 := by
  unfold Sim.getProxyFn
  rcases ensureInstance_cases s with he | he <;> rw [he]
  · exact h
  · exact SimInv.of_fields h (fun hn => by simp at hn) rfl rfl rfl rfl

/-- Incrementing the count preserves the invariant. -/
theorem inv_bumpCount (s : Sim) (h : SimInv s) :
    SimInv { s with refCount := s.refCount + 1 } := by
  obtain ⟨h1, h2, h3, h4, h5, h6, h7⟩ := h
  constructor
  · exact h1
  · exact h2
  · intro g hb
    obtain ⟨ha, hb2⟩ := h3 g hb
    refine ⟨ha, ?_⟩
    show (0 : Int) < s.refCount + 1
    omega
  · intro g hb
    obtain ⟨gi, ha, hb2, hc2, hd2⟩ := h4 g hb
    refine ⟨gi, ha, hb2, hc2, ?_⟩
    show (0 : Int) < s.refCount + 1
    omega
  · intro g cid hb
    obtain ⟨ha, hb2, hc2⟩ := h5 g cid hb
    refine ⟨ha, ?_, hc2⟩
    show (0 : Int) < s.refCount + 1
    omega
  · intro g gi hget ha
    exact (curGen_congr s _ rfl).trans (h6 g gi hget ha)
  · exact h7

/-- `ready()` preserves the invariant when the count is positive and an
instance exists. -/
theorem inv_ready (s : Sim) (h : SimInv s) (hpos : 0 < s.refCount)
    (hi : s.instanceVer ≠ none) : SimInv s.ready := by
  unfold Sim.ready
  split
  · next hd => exact inv_newReady s h hd hi hpos
  · next g hb =>
    have h2 := inv_toReady s g h hpos hb
    exact inv_startConnect _ g h2 rfl
  · exact h

/-- `acquire()` preserves the invariant. -/
theorem inv_acquireFn (s : Sim) (h : SimInv s) : SimInv (s.acquireFn).1 := by
  unfold Sim.acquireFn
  dsimp only
  have hens : SimInv (s.ensureInstance).1 := by
    rcases ensureInstance_cases s with he | he <;> rw [he]
    · exact h
    · exact SimInv.of_fields h (fun hn => by simp at hn) rfl rfl rfl rfl
  have hbump : SimInv { (s.ensureInstance).1 with
      refCount := ((s.ensureInstance).1).refCount + 1 } := inv_bumpCount _ hens
  split
  · next hpos =>
    refine inv_ready _ hbump hpos ?_
    intro hn
    have hn2 : ((s.ensureInstance).1).instanceVer = none := hn
    rw [ensureInstance_isSome] at hn2
    exact Option.noConfusion hn2
  · exact hbump

/-- `release()` preserves the invariant. -/
theorem inv_release (s : Sim) (h : SimInv s) : SimInv s.release := by
  unfold Sim.release
  split
  · exact h
  · dsimp only
    split
    · -- the count reached zero or below: disconnect()
      unfold Sim.disconnect
      split
      · next heq =>
        have heq2 : s.connState = ConnState.disconnected := heq
        refine inv_disconnected_state _ heq2 ?_ ?_
        · intro g2 gi2 hget2 ha2
          have := h.unabortedCur g2 gi2 hget2 ha2
          unfold Sim.curGen at this
          rw [heq2] at this
          simp at this
        · intro g2 gi2 cid2 hget2 hcp2
          exact h.cpBound g2 gi2 cid2 hget2 hcp2
      · next g heq =>
        have heq2 : s.connState = ConnState.blocked g := heq
        have hcur : s.curGen = some g := by
          unfold Sim.curGen
          rw [heq2]
        split
        · next hnone =>
          have hnone2 : s.gens.get? g = none := hnone
          refine inv_disconnected_state _ rfl ?_ ?_
          · intro g2 gi2 hget2 ha2
            have := h.unabortedCur g2 gi2 hget2 ha2
            rw [hcur] at this
            simp at this
            subst this
            rw [hget2] at hnone2
            exact Option.noConfusion hnone2
          · exact h.cpBound
        · next gi hsome =>
          have hsome2 : s.gens.get? g = some gi := hsome
          refine inv_disconnected_state _ rfl ?_ ?_
          · intro g2 gi2 hget2 ha2
            by_cases hgg : g2 = g
            · subst hgg
              have hx := get?_setIdx_self s.gens g2
                (GenInfo.mk true gi.promise gi.connectPending)
                (lt_of_get?_eq_some _ _ _ hsome2)
              have hxe := Option.some.inj (hx.symm.trans hget2)
              rw [← hxe] at ha2
              exact Bool.noConfusion ha2
            · have hget3 : s.gens.get? g2 = some gi2 :=
                (get?_setIdx_ne s.gens g g2 _ (fun hx => hgg hx.symm)).symm.trans hget2
              have := h.unabortedCur g2 gi2 hget3 ha2
              rw [hcur] at this
              simp at this
              exact hgg this.symm
          · intro g2 gi2 cid2 hget2 hcp2
            by_cases hgg : g2 = g
            · subst hgg
              have hx := get?_setIdx_self s.gens g2
                (GenInfo.mk true gi.promise gi.connectPending)
                (lt_of_get?_eq_some _ _ _ hsome2)
              have hxe := Option.some.inj (hx.symm.trans hget2)
              rw [← hxe] at hcp2
              have hcp3 : gi.connectPending = some cid2 := hcp2
              exact h.cpBound g2 gi cid2 hsome2 hcp3
            · have hget3 : s.gens.get? g2 = some gi2 :=
                (get?_setIdx_ne s.gens g g2 _ (fun hx => hgg hx.symm)).symm.trans hget2
              exact h.cpBound g2 gi2 cid2 hget3 hcp2
      · next g heq =>
        have heq2 : s.connState = ConnState.ready g := heq
        have hcur : s.curGen = some g := by
          unfold Sim.curGen
          rw [heq2]
        split
        · next hnone =>
          have hnone2 : s.gens.get? g = none := hnone
          refine inv_disconnected_state _ rfl ?_ ?_
          · intro g2 gi2 hget2 ha2
            have := h.unabortedCur g2 gi2 hget2 ha2
            rw [hcur] at this
            simp at this
            subst this
            rw [hget2] at hnone2
            exact Option.noConfusion hnone2
          · exact h.cpBound
        · next gi hsome =>
          have hsome2 : s.gens.get? g = some gi := hsome
          refine inv_disconnected_state _ rfl ?_ ?_
          · intro g2 gi2 hget2 ha2
            by_cases hgg : g2 = g
            · subst hgg
              have hx := get?_setIdx_self s.gens g2
                (GenInfo.mk true gi.promise gi.connectPending)
                (lt_of_get?_eq_some _ _ _ hsome2)
              have hxe := Option.some.inj (hx.symm.trans hget2)
              rw [← hxe] at ha2
              exact Bool.noConfusion ha2
            · have hget3 : s.gens.get? g2 = some gi2 :=
                (get?_setIdx_ne s.gens g g2 _ (fun hx => hgg hx.symm)).symm.trans hget2
              have := h.unabortedCur g2 gi2 hget3 ha2
              rw [hcur] at this
              simp at this
              exact hgg this.symm
          · intro g2 gi2 cid2 hget2 hcp2
            by_cases hgg : g2 = g
            · subst hgg
              have hx := get?_setIdx_self s.gens g2
                (GenInfo.mk true gi.promise gi.connectPending)
                (lt_of_get?_eq_some _ _ _ hsome2)
              have hxe := Option.some.inj (hx.symm.trans hget2)
              rw [← hxe] at hcp2
              have hcp3 : gi.connectPending = some cid2 := hcp2
              exact h.cpBound g2 gi cid2 hsome2 hcp3
            · have hget3 : s.gens.get? g2 = some gi2 :=
                (get?_setIdx_ne s.gens g g2 _ (fun hx => hgg hx.symm)).symm.trans hget2
              exact h.cpBound g2 gi2 cid2 hget3 hcp2
      · next g heq =>
        have heq2 : s.connState = ConnState.connecting g := heq
        have hcur : s.curGen = some g := by
          unfold Sim.curGen
          rw [heq2]
        split
        · next hnone =>
          have hnone2 : s.gens.get? g = none := hnone
          refine inv_disconnected_state _ rfl ?_ ?_
          · intro g2 gi2 hget2 ha2
            have := h.unabortedCur g2 gi2 hget2 ha2
            rw [hcur] at this
            simp at this
            subst this
            rw [hget2] at hnone2
            exact Option.noConfusion hnone2
          · exact h.cpBound
        · next gi hsome =>
          have hsome2 : s.gens.get? g = some gi := hsome
          refine inv_disconnected_state _ rfl ?_ ?_
          · intro g2 gi2 hget2 ha2
            by_cases hgg : g2 = g
            · subst hgg
              have hx := get?_setIdx_self s.gens g2
                (GenInfo.mk true gi.promise gi.connectPending)
                (lt_of_get?_eq_some _ _ _ hsome2)
              have hxe := Option.some.inj (hx.symm.trans hget2)
              rw [← hxe] at ha2
              exact Bool.noConfusion ha2
            · have hget3 : s.gens.get? g2 = some gi2 :=
                (get?_setIdx_ne s.gens g g2 _ (fun hx => hgg hx.symm)).symm.trans hget2
              have := h.unabortedCur g2 gi2 hget3 ha2
              rw [hcur] at this
              simp at this
              exact hgg this.symm
          · intro g2 gi2 cid2 hget2 hcp2
            by_cases hgg : g2 = g
            · subst hgg
              have hx := get?_setIdx_self s.gens g2
                (GenInfo.mk true gi.promise gi.connectPending)
                (lt_of_get?_eq_some _ _ _ hsome2)
              have hxe := Option.some.inj (hx.symm.trans hget2)
              rw [← hxe] at hcp2
              have hcp3 : gi.connectPending = some cid2 := hcp2
              exact h.cpBound g2 gi cid2 hsome2 hcp3
            · have hget3 : s.gens.get? g2 = some gi2 :=
                (get?_setIdx_ne s.gens g g2 _ (fun hx => hgg hx.symm)).symm.trans hget2
              exact h.cpBound g2 gi2 cid2 hget3 hcp2
      · next g cid heq =>
        have heq2 : s.connState = ConnState.connected g cid := heq
        have hcur : s.curGen = some g := by
          unfold Sim.curGen
          rw [heq2]
        obtain ⟨hgetC, hposC, chC, hchC, hokC⟩ := h.connectedInv g cid heq2
        dsimp only
        rw [hgetC]
        unfold Sim.disposeChan
        dsimp only
        rw [hchC]
        refine inv_disconnected_state _ rfl ?_ ?_
        · intro g2 gi2 hget2 ha2
          by_cases hgg : g2 = g
          · subst hgg
            have hx := get?_setIdx_self s.gens g2
              (GenInfo.mk true (PromiseSt.resolvedOk cid) none)
              (lt_of_get?_eq_some _ _ _ hgetC)
            have hxe := Option.some.inj (hx.symm.trans hget2)
            rw [← hxe] at ha2
            exact Bool.noConfusion ha2
          · have hget3 : s.gens.get? g2 = some gi2 :=
              (get?_setIdx_ne s.gens g g2 _ (fun hx => hgg hx.symm)).symm.trans hget2
            have := h.unabortedCur g2 gi2 hget3 ha2
            rw [hcur] at this
            simp at this
            exact hgg this.symm
        · intro g2 gi2 cid2 hget2 hcp2
          by_cases hgg : g2 = g
          · subst hgg
            have hx := get?_setIdx_self s.gens g2
              (GenInfo.mk true (PromiseSt.resolvedOk cid) none)
              (lt_of_get?_eq_some _ _ _ hgetC)
            have hxe := Option.some.inj (hx.symm.trans hget2)
            rw [← hxe] at hcp2
            exact Option.noConfusion hcp2
          · have hget3 : s.gens.get? g2 = some gi2 :=
              (get?_setIdx_ne s.gens g g2 _ (fun hx => hgg hx.symm)).symm.trans hget2
            obtain ⟨ch2, hch2⟩ := h.cpBound g2 gi2 cid2 hget3 hcp2
            by_cases hcc : cid2 = cid
            · subst hcc
              exact ⟨_, get?_setIdx_self s.channels cid2
                (Chan.mk chC.conn.dispose chC.ctorOk)
                (lt_of_get?_eq_some _ _ _ hchC)⟩
            · exact ⟨ch2, (get?_setIdx_ne s.channels cid cid2 _
                (fun hx => hcc hx.symm)).trans hch2⟩
    · -- count still positive
      next hgt =>
      obtain ⟨h1, h2, h3, h4, h5, h6, h7⟩ := h
      constructor
      · exact h1
      · exact h2
      · intro g hb
        obtain ⟨ha, _⟩ := h3 g hb
        refine ⟨ha, ?_⟩
        show (0 : Int) < s.refCount - 1
        omega
      · intro g hb
        obtain ⟨gi, ha, hb2, hc2, _⟩ := h4 g hb
        refine ⟨gi, ha, hb2, hc2, ?_⟩
        show (0 : Int) < s.refCount - 1
        omega
      · intro g cid hb
        obtain ⟨ha, _, hc2⟩ := h5 g cid hb
        refine ⟨ha, ?_, hc2⟩
        show (0 : Int) < s.refCount - 1
        omega
      · intro g gi hget ha
        exact (curGen_congr s _ rfl).trans (h6 g gi hget ha)
      · exact h7

/-- A proxy method call preserves the invariant. -/
theorem inv_mcall (s : Sim) (name : String) (args : List Val) (h : SimInv s) :
    SimInv (s.mcall name args) := by
  unfold Sim.mcall
  dsimp only
  have hc := prep_core s name
  have hcs : (((s.ensureInstance).1.getMethod name).1).connState = s.connState :=
    congrArg Core.connState hc
  have hgens : (((s.ensureInstance).1.getMethod name).1).gens = s.gens :=
    congrArg Core.gens hc
  have hchan : (((s.ensureInstance).1.getMethod name).1).channels = s.channels :=
    congrArg Core.channels hc
  have hr : (((s.ensureInstance).1.getMethod name).1).refCount = s.refCount :=
    congrArg Core.refCount hc
  have hprep : SimInv ((s.ensureInstance).1.getMethod name).1 :=
    SimInv.of_fields h
      (fun hn => by rw [prep_isSome s name] at hn; exact Option.noConfusion hn)
      hcs hgens hchan hr
  have hinst : (((s.ensureInstance).1.getMethod name).1).instanceVer ≠ none := by
    intro hn
    rw [prep_isSome s name] at hn
    exact Option.noConfusion hn
  split
  · next heq =>
    have hnb := inv_newBlocked _ hprep heq hinst
    refine inv_attachCall _ _ name args hnb GenInfo.fresh ?_ ?_
    · exact get?_append_self _ GenInfo.fresh
    · intro cid2
      simp [GenInfo.fresh]
  · next g heq =>
    exact inv_attachCall _ g name args hprep GenInfo.fresh
      (hprep.blockedFresh g heq) (fun cid2 => by simp [GenInfo.fresh])
  · next g heq =>
    have hsc := inv_startConnect _ g hprep heq
    have hcs2 : ((((s.ensureInstance).1.getMethod name).1).startConnect g).connState
        = ConnState.connecting g := by
      have hgetf := (hprep.readyFresh g heq).1
      unfold Sim.startConnect
      rw [hgetf]
      simp [GenInfo.fresh]
    obtain ⟨gi2, hget2, ha2, hnres2, hpos2⟩ := hsc.connectingInv g hcs2
    exact inv_attachCall _ g name args hsc gi2 hget2 hnres2
  · next g heq =>
    obtain ⟨gi2, hget2, ha2, hnres2, hpos2⟩ := hprep.connectingInv g heq
    exact inv_attachCall _ g name args hprep gi2 hget2 hnres2
  · next g cid heq =>
    exact inv_sendOn_connected _ g cid name args hprep heq

/-- Routing a pending-entry settlement preserves the invariant. -/
theorem inv_interpretAction (s : Sim) (cid : Nat) (act : RpcAction)
    (h : SimInv s) : SimInv (s.interpretAction cid act) := by
  unfold Sim.interpretAction
  cases act with
  | warned k => exact h
  | dropped => exact h
  | resolved id v =>
    dsimp only
    split
    · next g hfp =>
      obtain ⟨gi, hget, hcp⟩ := findPending_spec s.gens cid g hfp
      split
      · exact inv_finishConnect s g cid true v h gi hget hcp
      · exact inv_settleSent s cid id _ h
    · exact inv_settleSent s cid id _ h
  | rejected id e =>
    dsimp only
    split
    · next g hfp =>
      obtain ⟨gi, hget, hcp⟩ := findPending_spec s.gens cid g hfp
      split
      · exact inv_finishConnect s g cid false e h gi hget hcp
      · exact inv_settleSent s cid id _ h
    · exact inv_settleSent s cid id _ h

/-- An incoming response envelope preserves the invariant. -/
theorem inv_response (s : Sim) (cid : Nat) (m : ResponseMsg) (h : SimInv s) :
    SimInv (s.response cid m) := by
  unfold Sim.response
  cases hch : s.channels.get? cid with
  | none => exact h
  | some ch =>
    dsimp only
    cases hl : ch.conn.listening with
    | false =>
      simp only [Bool.false_eq_true, if_false]
      exact h
    | true =>
      simp only [reduceIte]
      exact inv_interpretAction _ cid _ (inv_setConn s cid ch _ hch h)

/-- A worker fault preserves the invariant. -/
theorem inv_fault (s : Sim) (cid : Nat) (err : Val) (h : SimInv s) :
    SimInv (s.fault cid err) := by
  unfold Sim.fault
  cases hch : s.channels.get? cid with
  | none => exact h
  | some ch =>
    dsimp only
    cases hl : ch.conn.listening with
    | false =>
      simp only [Bool.false_eq_true, if_false]
      exact h
    | true =>
      simp only [reduceIte]
      exact foldl_inv SimInv (fun acc a => acc.interpretAction cid a)
        (fun s2 a h2 => inv_interpretAction s2 cid a h2) _ _
        (inv_setConn s cid ch _ hch h)

/-- Every event preserves the invariant. -/
theorem inv_step (s : Sim) (e : Ev) (h : SimInv s) : SimInv (s.step e) := by
  cases e with
  | getProxy => exact inv_getProxyFn s h
  | acquire => exact inv_acquireFn s h
  | release => exact inv_release s h
  | mcall name args => exact inv_mcall s name args h
  | response cid m => exact inv_response s cid m h
  | fault cid err => exact inv_fault s cid err h

/-- Every reachable state satisfies the invariant. -/
theorem inv_run (args : List Val) (t : List Ev) : SimInv (Sim.run args t) :=
  foldl_inv SimInv Sim.step (fun s e h => inv_step s e h) t (Sim.init args)
    (inv_init args)

/-! ## The configured constructor arguments never change -/

/-- `startConnect` keeps the configured arguments. -/
theorem startConnect_ctorArgs (s : Sim) (g : Nat) :
    (s.startConnect g).ctorArgs = s.ctorArgs := by
  unfold Sim.startConnect Sim.rejectWaiting
  split
  · rfl
  · split
    · rfl
    · rfl

/-- `ready` keeps the configured arguments. -/
theorem ready_ctorArgs (s : Sim) : (s.ready).ctorArgs = s.ctorArgs := by
  unfold Sim.ready
  split
  · rfl
  · next g hb => exact startConnect_ctorArgs _ g
  · rfl

/-- `ensureInstance` keeps the configured arguments. -/
theorem ensureInstance_ctorArgs (s : Sim) :
    ((s.ensureInstance).1).ctorArgs = s.ctorArgs := by
  rcases ensureInstance_cases s with he | he <;> rw [he] <;> rfl

/-- `acquire` keeps the configured arguments. -/
theorem acquireFn_ctorArgs (s : Sim) :
    ((s.acquireFn).1).ctorArgs = s.ctorArgs := by
  unfold Sim.acquireFn
  dsimp only
  split
  · exact (ready_ctorArgs _).trans (ensureInstance_ctorArgs s)
  · exact ensureInstance_ctorArgs s

/-- `disconnect` keeps the configured arguments. -/
theorem disconnect_ctorArgs (s : Sim) : (s.disconnect).ctorArgs = s.ctorArgs := by
  unfold Sim.disconnect Sim.disposeChan
  repeat' first
    | split
    | (dsimp only)
  all_goals rfl

/-- `release` keeps the configured arguments. -/
theorem release_ctorArgs (s : Sim) : (s.release).ctorArgs = s.ctorArgs := by
  unfold Sim.release
  split
  · rfl
  · dsimp only
    split
    · exact disconnect_ctorArgs _
    · rfl

/-- `sendOn` keeps the configured arguments. -/
theorem sendOn_ctorArgs (s : Sim) (cid : Nat) (name : String) (args : List Val) :
    (s.sendOn cid name args).ctorArgs = s.ctorArgs := by
  unfold Sim.sendOn
  split
  · rfl
  · rfl

/-- `attachCall` keeps the configured arguments. -/
theorem attachCall_ctorArgs (s : Sim) (g : Nat) (name : String) (args : List Val) :
    (s.attachCall g name args).ctorArgs = s.ctorArgs := by
  unfold Sim.attachCall
  split
  · rfl
  · split
    · rfl
    · rfl
    · rfl
    · exact sendOn_ctorArgs _ _ name args

/-- `getMethod` keeps the configured arguments. -/
theorem getMethod_ctorArgs (s : Sim) (name : String) :
    ((s.getMethod name).1).ctorArgs = s.ctorArgs := by
  rcases getMethod_cases s name with hg | hg <;> rw [hg] <;> rfl

/-- `mcall` keeps the configured arguments. -/
theorem mcall_ctorArgs (s : Sim) (name : String) (args : List Val) :
    (s.mcall name args).ctorArgs = s.ctorArgs := by
  unfold Sim.mcall
  dsimp only
  have hp : (((s.ensureInstance).1.getMethod name).1).ctorArgs = s.ctorArgs :=
    (getMethod_ctorArgs _ name).trans (ensureInstance_ctorArgs s)
  split
  · exact (attachCall_ctorArgs _ _ name args).trans hp
  · exact (attachCall_ctorArgs _ _ name args).trans hp
  · exact (attachCall_ctorArgs _ _ name args).trans
      ((startConnect_ctorArgs _ _).trans hp)
  · exact (attachCall_ctorArgs _ _ name args).trans hp
  · exact (sendOn_ctorArgs _ _ name args).trans hp

/-- `finishConnect` keeps the configured arguments. -/
theorem finishConnect_ctorArgs (s : Sim) (g cid : Nat) (ok : Bool) (e : Val) :
    (s.finishConnect g cid ok e).ctorArgs = s.ctorArgs := by
  unfold Sim.finishConnect Sim.disposeChan Sim.rejectWaiting Sim.flushWaiting
  repeat' first
    | split
    | (dsimp only)
  all_goals rfl

/-- `interpretAction` keeps the configured arguments. -/
theorem interpretAction_ctorArgs (s : Sim) (cid : Nat) (act : RpcAction) :
    (s.interpretAction cid act).ctorArgs = s.ctorArgs := by
  unfold Sim.interpretAction Sim.settleSent
  cases act with
  | warned k => rfl
  | dropped => rfl
  | resolved id v =>
    dsimp only
    split
    · split
      · exact finishConnect_ctorArgs _ _ _ true v
      · rfl
    · rfl
  | rejected id e =>
    dsimp only
    split
    · split
      · exact finishConnect_ctorArgs _ _ _ false e
      · rfl
    · rfl

/-- `response` keeps the configured arguments. -/
theorem response_ctorArgs (s : Sim) (cid : Nat) (m : ResponseMsg) :
    (s.response cid m).ctorArgs = s.ctorArgs := by
  unfold Sim.response
  split
  · rfl
  · split
    · exact interpretAction_ctorArgs _ cid _
    · rfl

/-- `fault` keeps the configured arguments. -/
theorem fault_ctorArgs (s : Sim) (cid : Nat) (err : Val) :
    (s.fault cid err).ctorArgs = s.ctorArgs := by
  unfold Sim.fault
  split
  · rfl
  · split
    · dsimp only
      refine foldl_inv (fun s2 => s2.ctorArgs = s.ctorArgs)
        (fun acc a => acc.interpretAction cid a)
        (fun s2 a h2 => (interpretAction_ctorArgs s2 cid a).trans h2) _ _ ?_
      rfl
    · rfl

/-- Every step keeps the configured arguments. -/
theorem step_ctorArgs (s : Sim) (e : Ev) : (s.step e).ctorArgs = s.ctorArgs := by
  cases e with
  | getProxy =>
    show ((s.getProxyFn).1).ctorArgs = s.ctorArgs
    exact ensureInstance_ctorArgs s
  | acquire => exact acquireFn_ctorArgs s
  | release => exact release_ctorArgs s
  | mcall name args => exact mcall_ctorArgs s name args
  | response cid m => exact response_ctorArgs s cid m
  | fault cid err => exact fault_ctorArgs s cid err

/-- Every reachable state carries the configured arguments. -/
theorem run_ctorArgs (args : List Val) (t : List Ev) :
    (Sim.run args t).ctorArgs = args :=
  foldl_inv (fun s2 => s2.ctorArgs = args) Sim.step
    (fun s2 e h2 => (step_ctorArgs s2 e).trans h2) t (Sim.init args) rfl

/-! ## The lazy-connection instance is never discarded or replaced -/

/-- `startConnect` keeps the instance id. -/
theorem startConnect_instanceVer (s : Sim) (g : Nat) :
    (s.startConnect g).instanceVer = s.instanceVer := by
  unfold Sim.startConnect Sim.rejectWaiting
  repeat' first
    | split
    | (dsimp only)
  all_goals rfl

/-- `ready` keeps the instance id. -/
theorem ready_instanceVer (s : Sim) : (s.ready).instanceVer = s.instanceVer := by
  unfold Sim.ready
  split
  · rfl
  · next g hb => exact startConnect_instanceVer _ g
  · rfl

/-- `ensureInstance` keeps an existing instance id. -/
theorem ensureInstance_keeps (s : Sim) (i : Nat) (h : s.instanceVer = some i) :
    ((s.ensureInstance).1).instanceVer = some i := by
  unfold Sim.ensureInstance
  rw [h]
  exact h

/-- `acquire` keeps an existing instance id. -/
theorem acquireFn_keeps (s : Sim) (i : Nat) (h : s.instanceVer = some i) :
    ((s.acquireFn).1).instanceVer = some i := by
  unfold Sim.acquireFn
  dsimp only
  split
  · exact (ready_instanceVer _).trans (ensureInstance_keeps s i h)
  · exact ensureInstance_keeps s i h

/-- `disconnect` keeps the instance id. -/
theorem disconnect_instanceVer (s : Sim) :
    (s.disconnect).instanceVer = s.instanceVer := by
  unfold Sim.disconnect Sim.disposeChan
  repeat' first
    | split
    | (dsimp only)
  all_goals rfl

/-- `release` keeps the instance id. -/
theorem release_instanceVer (s : Sim) :
    (s.release).instanceVer = s.instanceVer := by
  unfold Sim.release
  split
  · rfl
  · dsimp only
    split
    · exact disconnect_instanceVer _
    · rfl

/-- `sendOn` keeps the instance id. -/
theorem sendOn_instanceVer (s : Sim) (cid : Nat) (name : String) (args : List Val) :
    (s.sendOn cid name args).instanceVer = s.instanceVer := by
  unfold Sim.sendOn
  split
  · rfl
  · rfl

/-- `attachCall` keeps the instance id. -/
theorem attachCall_instanceVer (s : Sim) (g : Nat) (name : String) (args : List Val) :
    (s.attachCall g name args).instanceVer = s.instanceVer := by
  unfold Sim.attachCall
  split
  · rfl
  · split
    · rfl
    · rfl
    · rfl
    · exact sendOn_instanceVer _ _ name args

/-- `getMethod` keeps the instance id. -/
theorem getMethod_instanceVer (s : Sim) (name : String) :
    ((s.getMethod name).1).instanceVer = s.instanceVer := by
  rcases getMethod_cases s name with hg | hg <;> rw [hg] <;> rfl

/-- `mcall` keeps an existing instance id. -/
theorem mcall_keeps (s : Sim) (name : String) (args : List Val) (i : Nat)
    (h : s.instanceVer = some i) :
    (s.mcall name args).instanceVer = some i := by
  unfold Sim.mcall
  dsimp only
  have hp : (((s.ensureInstance).1.getMethod name).1).instanceVer = some i :=
    (getMethod_instanceVer _ name).trans (ensureInstance_keeps s i h)
  split
  · exact (attachCall_instanceVer _ _ name args).trans hp
  · exact (attachCall_instanceVer _ _ name args).trans hp
  · exact (attachCall_instanceVer _ _ name args).trans
      ((startConnect_instanceVer _ _).trans hp)
  · exact (attachCall_instanceVer _ _ name args).trans hp
  · exact (sendOn_instanceVer _ _ name args).trans hp

/-- `finishConnect` keeps the instance id. -/
theorem finishConnect_instanceVer (s : Sim) (g cid : Nat) (ok : Bool) (e : Val) :
    (s.finishConnect g cid ok e).instanceVer = s.instanceVer := by
  unfold Sim.finishConnect Sim.disposeChan Sim.rejectWaiting Sim.flushWaiting
  repeat' first
    | split
    | (dsimp only)
  all_goals rfl

/-- `interpretAction` keeps the instance id. -/
theorem interpretAction_instanceVer (s : Sim) (cid : Nat) (act : RpcAction) :
    (s.interpretAction cid act).instanceVer = s.instanceVer := by
  unfold Sim.interpretAction Sim.settleSent
  cases act with
  | warned k => rfl
  | dropped => rfl
  | resolved id v =>
    dsimp only
    split
    · split
      · exact finishConnect_instanceVer _ _ _ true v
      · rfl
    · rfl
  | rejected id e =>
    dsimp only
    split
    · split
      · exact finishConnect_instanceVer _ _ _ false e
      · rfl
    · rfl

/-- `response` keeps the instance id. -/
theorem response_instanceVer (s : Sim) (cid : Nat) (m : ResponseMsg) :
    (s.response cid m).instanceVer = s.instanceVer := by
  unfold Sim.response
  split
  · rfl
  · split
    · exact interpretAction_instanceVer _ cid _
    · rfl

/-- `fault` keeps the instance id. -/
theorem fault_instanceVer (s : Sim) (cid : Nat) (err : Val) :
    (s.fault cid err).instanceVer = s.instanceVer := by
  unfold Sim.fault
  split
  · rfl
  · split
    · dsimp only
      refine foldl_inv (fun s2 => s2.instanceVer = s.instanceVer)
        (fun acc a => acc.interpretAction cid a)
        (fun s2 a h2 => (interpretAction_instanceVer s2 cid a).trans h2) _ _ ?_
      rfl
    · rfl

/-- Every step keeps an existing instance id. -/
theorem step_keeps (s : Sim) (e : Ev) (i : Nat) (h : s.instanceVer = some i) :
    (s.step e).instanceVer = some i := by
  cases e with
  | getProxy =>
    show ((s.getProxyFn).1).instanceVer = some i
    exact ensureInstance_keeps s i h
  | acquire => exact acquireFn_keeps s i h
  | release => exact (release_instanceVer s).trans h
  | mcall name args => exact mcall_keeps s name args i h
  | response cid m => exact (response_instanceVer s cid m).trans h
  | fault cid err => exact (fault_instanceVer s cid err).trans h

/-- C10: the callable surface is one stable object — once the lazy proxy
instance exists its id never changes across any further events (including
disconnect/reconnect cycles), and `getProxy()` and `acquire()` both return
that same instance's proxy. -/
theorem c10_single_proxy_instance :
    (∀ (args : List Val) (t u : List Ev) (i : Nat),
      (Sim.run args t).instanceVer = some i →
      (Sim.run args (t ++ u)).instanceVer = some i) ∧
    (∀ (args : List Val) (t : List Ev),
      ((Sim.run args t).getProxyFn).2 = ((Sim.run args t).acquireFn).2 ∧
      (((Sim.run args t).getProxyFn).1).instanceVer
        = some (((Sim.run args t).getProxyFn).2) ∧
      ∀ i, (Sim.run args t).instanceVer = some i →
        ((Sim.run args t).getProxyFn).2 = i) := by
  constructor
  · intro args t u i h
    unfold Sim.run
    rw [List.foldl_append]
    exact foldl_inv (fun s2 => s2.instanceVer = some i) Sim.step
      (fun s2 e h2 => step_keeps s2 e i h2) u _ h
  · intro args t
    refine ⟨?_, ensureInstance_isSome _, ?_⟩
    · unfold Sim.getProxyFn Sim.acquireFn
      dsimp only
      split
      · rfl
      · rfl
    · intro i h
      unfold Sim.getProxyFn Sim.ensureInstance
      rw [h]

/-- Witness for C10: the instance id survives a release/reacquire cycle. -/
theorem c10_single_proxy_instance_witness :
    (Sim.run [] ([Ev.acquire] ++ [Ev.release, Ev.acquire])).instanceVer = some 0 :=
  c10_single_proxy_instance.1 [] [Ev.acquire] [Ev.release, Ev.acquire] 0 (by decide)

/-- A state reporting `'connected'` holds a connected connection state. -/
theorem getState_connected_shape (s : Sim) (h : s.getState = "connected") :
    ∃ g cid, s.connState = ConnState.connected g cid := by
  unfold Sim.getState at h
  cases hi : s.instanceVer with
  | none =>
    rw [hi] at h
    have h3 : "disconnected" = "connected" := h
    exact absurd h3 (by decide)
  | some v =>
    rw [hi] at h
    have h2 : s.connState.tag = "connected" := h
    cases hcs : s.connState with
    | connected g cid => exact ⟨g, cid, rfl⟩
    | disconnected =>
      rw [hcs] at h2
      have h3 : "disconnected" = "connected" := h2
      exact absurd h3 (by decide)
    | blocked g =>
      rw [hcs] at h2
      have h3 : "blocked" = "connected" := h2
      exact absurd h3 (by decide)
    | ready g =>
      rw [hcs] at h2
      have h3 : "ready" = "connected" := h2
      exact absurd h3 (by decide)
    | connecting g =>
      rw [hcs] at h2
      have h3 : "connecting" = "connected" := h2
      exact absurd h3 (by decide)

/-- C2 amended: for every reachable state, `getState()` reports
`'connected'` exactly when the net reference count is positive and the
current attempt's channel construction has completed; whenever the count
is zero or below it reports `'disconnected'` or `'blocked'`; and the
acquire, acquire, release, release interleaving keeps the worker alive
(still connected) until the second release. -/
theorem c2_connected_iff_count_and_construction :
    (∀ (args : List Val) (t : List Ev),
      ((Sim.run args t).getState = "connected" ↔
        0 < (Sim.run args t).refCount ∧
          (Sim.run args t).constructionCompleted = true) ∧
      ((Sim.run args t).refCount ≤ 0 →
        (Sim.run args t).getState = "disconnected" ∨
          (Sim.run args t).getState = "blocked")) ∧
    ((Sim.run [] [Ev.acquire, Ev.acquire, Ev.mcall "m" [],
        Ev.response 0 (ResponseMsg.success 1 Val.undef), Ev.release]).getState
      = "connected" ∧
     (Sim.run [] [Ev.acquire, Ev.acquire, Ev.mcall "m" [],
        Ev.response 0 (ResponseMsg.success 1 Val.undef), Ev.release,
        Ev.release]).getState = "disconnected") := by
  constructor
  · intro args t
    have h := inv_run args t
    constructor
    · constructor
      · intro hcon
        obtain ⟨g, cid, hcs⟩ := getState_connected_shape _ hcon
        obtain ⟨hget, hpos, _⟩ := h.connectedInv g cid hcs
        refine ⟨hpos, ?_⟩
        simp only [Sim.constructionCompleted, hcs, hget, Option.map_some']
      · rintro ⟨hpos, hcc⟩
        cases hcs : (Sim.run args t).connState with
        | disconnected =>
          simp only [Sim.constructionCompleted, hcs] at hcc
          exact Bool.noConfusion hcc
        | blocked g =>
          have hf := h.blockedFresh g hcs
          simp only [Sim.constructionCompleted, hcs, hf, GenInfo.fresh,
            Option.map_some'] at hcc
          exact Bool.noConfusion hcc
        | ready g =>
          have hf := (h.readyFresh g hcs).1
          simp only [Sim.constructionCompleted, hcs, hf, GenInfo.fresh,
            Option.map_some'] at hcc
          exact Bool.noConfusion hcc
        | connecting g =>
          obtain ⟨gi, hget, ha, hnres, _⟩ := h.connectingInv g hcs
          obtain ⟨ab, pr, cp⟩ := gi
          cases pr with
          | resolvedOk c => exact absurd rfl (hnres c)
          | pending =>
            simp only [Sim.constructionCompleted, hcs, hget, Option.map_some'] at hcc
            exact Bool.noConfusion hcc
          | rejectedAbort =>
            simp only [Sim.constructionCompleted, hcs, hget, Option.map_some'] at hcc
            exact Bool.noConfusion hcc
          | rejectedWith e2 =>
            simp only [Sim.constructionCompleted, hcs, hget, Option.map_some'] at hcc
            exact Bool.noConfusion hcc
        | connected g cid =>
          cases hi : (Sim.run args t).instanceVer with
          | none =>
            have := h.instNone hi
            rw [hcs] at this
            exact absurd this (by simp)
          | some v =>
            simp [Sim.getState, hi, hcs, ConnState.tag]
    · intro hle
      cases hcs : (Sim.run args t).connState with
      | disconnected =>
        cases hi : (Sim.run args t).instanceVer with
        | none => left; simp [Sim.getState, hi]
        | some v => left; simp [Sim.getState, hi, hcs, ConnState.tag]
      | blocked g =>
        cases hi : (Sim.run args t).instanceVer with
        | none =>
          have := h.instNone hi
          rw [hcs] at this
          exact absurd this (by simp)
        | some v => right; simp [Sim.getState, hi, hcs, ConnState.tag]
      | ready g =>
        have := (h.readyFresh g hcs).2
        omega
      | connecting g =>
        obtain ⟨gi, _, _, _, hpos⟩ := h.connectingInv g hcs
        omega
      | connected g cid =>
        obtain ⟨_, hpos, _⟩ := h.connectedInv g cid hcs
        omega
  · constructor
    · decide
    · decide

/-- Witness for C2's amended statement: a trace with the count at zero
reports blocked. -/
theorem c2_connected_iff_count_and_construction_witness :
    (Sim.run [] [Ev.getProxy, Ev.mcall "add" []]).getState = "disconnected" ∨
    (Sim.run [] [Ev.getProxy, Ev.mcall "add" []]).getState = "blocked" :=
  (c2_connected_iff_count_and_construction.1 [] [Ev.getProxy, Ev.mcall "add" []]).2
    (by decide)

/-! ## Claim C4: the ready-to-connecting transition -/

/-- `startConnect` from a fresh generation: the state moves to
`connecting`, the worker factory runs once more, one brand-new channel is
appended whose only posted envelope is the `"constructor"` call with the
configured arguments, the generation records the suspended `connect()`,
and no call is touched. -/
theorem startConnect_fresh_shape (s : Sim) (g : Nat)
    (hg : s.gens.get? g = some GenInfo.fresh) :
    (s.startConnect g).connState = ConnState.connecting g ∧
    (s.startConnect g).factoryCount = s.factoryCount + 1 ∧
    (s.startConnect g).channels = s.channels
      ++ [Chan.mk ((WorkerConnection.new.call "constructor" s.ctorArgs (some ())).1) false] ∧
    (s.startConnect g).gens
      = setIdx s.gens g (GenInfo.mk false PromiseSt.pending (some s.channels.length)) ∧
    (s.startConnect g).calls = s.calls := by
  unfold Sim.startConnect
  rw [hg]
  simp [GenInfo.fresh]

/-- A method call carried out in the `ready` state of an invariant state:
the connection attempt starts (state `connecting`), the factory is invoked
once more, and exactly one fresh channel is appended, carrying the
`"constructor"` envelope with the configured arguments as its only posted
message. -/
theorem mcall_ready_shape (s : Sim) (g : Nat) (name : String) (a : List Val)
    (h : SimInv s) (hr : s.connState = ConnState.ready g) :
    (s.mcall name a).connState = ConnState.connecting g ∧
    (s.mcall name a).factoryCount = s.factoryCount + 1 ∧
    (s.mcall name a).channels = s.channels
      ++ [Chan.mk ((WorkerConnection.new.call "constructor" s.ctorArgs (some ())).1) false] := by
  have hc := prep_core s name
  have hcs : (((s.ensureInstance).1.getMethod name).1).connState = s.connState :=
    congrArg Core.connState hc
  have hgens : (((s.ensureInstance).1.getMethod name).1).gens = s.gens :=
    congrArg Core.gens hc
  have hchan : (((s.ensureInstance).1.getMethod name).1).channels = s.channels :=
    congrArg Core.channels hc
  have hfac : (((s.ensureInstance).1.getMethod name).1).factoryCount = s.factoryCount :=
    congrArg Core.factoryCount hc
  have hargs : (((s.ensureInstance).1.getMethod name).1).ctorArgs = s.ctorArgs :=
    congrArg Core.ctorArgs hc
  have hgetf : s.gens.get? g = some GenInfo.fresh := (h.readyFresh g hr).1
  have hget2 : (((s.ensureInstance).1.getMethod name).1).gens.get? g
      = some GenInfo.fresh := by
    rw [hgens]; exact hgetf
  obtain ⟨hc1, hc2, hc3, hc4, hc5⟩ :=
    startConnect_fresh_shape (((s.ensureInstance).1.getMethod name).1) g hget2
  have hglt : g < (((s.ensureInstance).1.getMethod name).1).gens.length :=
    lt_of_get?_eq_some _ _ _ hget2
  have hget3 : ((((s.ensureInstance).1.getMethod name).1).startConnect g).gens.get? g
      = some (GenInfo.mk false PromiseSt.pending
          (some (((s.ensureInstance).1.getMethod name).1).channels.length)) := by
    rw [hc4]
    exact get?_setIdx_self _ g _ hglt
  have hm : s.mcall name a
      = ((((s.ensureInstance).1.getMethod name).1).startConnect g).attachCall g name a := by
    unfold Sim.mcall
    dsimp only
    rw [hcs, hr]
  rw [hm]
  unfold Sim.attachCall
  rw [hget3]
  dsimp only
  exact ⟨hc1, by rw [hc2, hfac], by rw [hc3, hchan, hargs]⟩

/-- C4: whenever a reachable state sits in `ready`, the method call that
drives `tryConnect` moves the machine to `connecting`, invokes the worker
factory once more, and builds a brand-new channel whose only posted
envelope — hence the first Call Envelope ever sent over it — is the
`"constructor"` call carrying the configured constructor arguments; and a
reachable state is `connected` only while holding a channel whose
initialization call has succeeded. -/
theorem c4_ready_transition_builds_channel_sends_ctor :
    (∀ (args : List Val) (t : List Ev) (g : Nat) (name : String) (a : List Val),
      (Sim.run args t).connState = ConnState.ready g →
      ((Sim.run args t).step (Ev.mcall name a)).connState = ConnState.connecting g ∧
      ((Sim.run args t).step (Ev.mcall name a)).factoryCount
        = (Sim.run args t).factoryCount + 1 ∧
      ((Sim.run args t).step (Ev.mcall name a)).channels
        = (Sim.run args t).channels
          ++ [Chan.mk (WorkerConnection.mk [1] 2 [Message.call 1 "constructor" args] true) false]) ∧
    (∀ (args : List Val) (t : List Ev) (g cid : Nat),
      (Sim.run args t).connState = ConnState.connected g cid →
      ∃ ch, (Sim.run args t).channels.get? cid = some ch ∧ ch.ctorOk = true) := by
  constructor
  · intro args t g name a hr
    have hstep : (Sim.run args t).step (Ev.mcall name a)
        = (Sim.run args t).mcall name a := rfl
    rw [hstep]
    obtain ⟨h1, h2, h3⟩ :=
      mcall_ready_shape (Sim.run args t) g name a (inv_run args t) hr
    refine ⟨h1, h2, ?_⟩
    rw [h3, run_ctorArgs args t]
    rfl
  · intro args t g cid hcc
    exact ((inv_run args t).connectedInv g cid hcc).2.2

/-- Witness for C4's ready-transition conjunct at the state reached by one
acquire. -/
theorem c4_ready_transition_builds_channel_sends_ctor_witness :
    ((Sim.run [Val.num 5] [Ev.acquire]).step (Ev.mcall "add" [Val.num 1])).connState
        = ConnState.connecting 0 ∧
    ((Sim.run [Val.num 5] [Ev.acquire]).step (Ev.mcall "add" [Val.num 1])).factoryCount
        = (Sim.run [Val.num 5] [Ev.acquire]).factoryCount + 1 ∧
    ((Sim.run [Val.num 5] [Ev.acquire]).step (Ev.mcall "add" [Val.num 1])).channels
        = (Sim.run [Val.num 5] [Ev.acquire]).channels
          ++ [Chan.mk (WorkerConnection.mk [1] 2 [Message.call 1 "constructor" [Val.num 5]] true) false] :=
  c4_ready_transition_builds_channel_sends_ctor.1 [Val.num 5] [Ev.acquire] 0
    "add" [Val.num 1] (by decide)
